import Mathlib

/-!
Verification of the ClickHouse engine of `sqlc` (dialect parse-tree → canonical
AST conversion, `internal/engine/clickhouse/convert.go`, plus the catalog
constructor and the parameter-rewrite pipeline described by the repository's
own documents).

The Go code is embedded shallowly:

* Go structs become Lean structures / inductive constructors; nil-able struct
  pointer fields become `Option`.
* Go string-library calls (`strings.ToLower`, `strings.HasPrefix`,
  `strings.ContainsAny`, `strconv.ParseInt`, `strconv.ParseFloat`, …) are
  modelled by explicit Lean functions defined below, one per Go function.
* The converter receiver `cc` holds a single mutable field `paramCount`; it is
  threaded explicitly as part of a conversion state `St`.  Because
  `convertSelectQuery` mutates an already-allocated `ast.SelectStmt` through
  its own pointer (`selectStmt.Larg = selectStmt`), `ast.SelectStmt` objects
  are modelled with explicit addresses into a heap (`St.selects`); every other
  canonical node is built exactly once and is modelled as a plain value.
-/

set_option maxHeartbeats 1600000

namespace ClickHouse

/-! ## Models of the Go standard-library string functions -/

/-- Character used for a single quote (avoids a quote character literal). -/
def squoteChar : Char := Char.ofNat 39

/-- Character used for a double quote. -/
def dquoteChar : Char := Char.ofNat 34

/-- Model of the per-character lowering done by Go `strings.ToLower` on the
ASCII range (every identifier and type name handled by the converter is
ASCII; non-ASCII characters are left unchanged, as Go also does for
characters without a lower-case form). -/
def goToLowerChar (c : Char) : Char :=
  if 65 ≤ c.toNat ∧ c.toNat ≤ 90 then Char.ofNat (c.toNat + 32) else c

/-- Model of Go `strings.ToLower`. -/
def goToLower (s : String) : String := ⟨s.data.map goToLowerChar⟩

/-- Model of the per-character raising done by Go `strings.ToUpper` on the
ASCII range. -/
def goToUpperChar (c : Char) : Char :=
  if 97 ≤ c.toNat ∧ c.toNat ≤ 122 then Char.ofNat (c.toNat - 32) else c

/-- Model of Go `strings.ToUpper`. -/
def goToUpper (s : String) : String := ⟨s.data.map goToUpperChar⟩

/-- Model of Go `strings.HasPrefix`. -/
def goStartsWith (s pre : String) : Bool := pre.data.isPrefixOf s.data

/-- Model of Go `strings.TrimPrefix`: drops `pre` when it heads `s`,
otherwise returns `s` unchanged. -/
def goTrimPrefixStr (s pre : String) : String :=
  if pre.data.isPrefixOf s.data then ⟨s.data.drop pre.data.length⟩ else s

/-- Substring containment on character lists (helper for `goContains`). -/
def subListAt : List Char → List Char → Bool
  | s, sub =>
    match s with
    | [] => sub.isEmpty
    | _ :: t => sub.isPrefixOf s || subListAt t sub

/-- Model of Go `strings.Contains`. -/
def goContains (s sub : String) : Bool := subListAt s.data sub.data

/-- Model of Go `strings.ContainsAny`: does `s` contain any character of
`chars`? -/
def goContainsAny (s chars : String) : Bool :=
  s.data.any (fun c => chars.data.contains c)

/-! ## Model of `strconv.ParseInt(s, 10, 64)`

Base 10 is passed explicitly, so no base prefixes and no underscores are
accepted; an optional single leading `+`/`-` sign is followed by at least one
decimal digit, and the value must fit in a signed 64-bit integer (otherwise
Go reports `ErrRange`, which `convertNumberLiteral` treats as failure). -/

/-- Decimal digit test. -/
def isDigitChar (c : Char) : Bool := 48 ≤ c.toNat ∧ c.toNat ≤ 57

/-- Value of a list of decimal digits; `none` if empty or any non-digit. -/
def decDigitsVal : List Char → Option Nat
  | [] => none
  | ds =>
    if ds.all isDigitChar then
      some (ds.foldl (fun acc c => acc * 10 + (c.toNat - 48)) 0)
    else none

/-- Model of Go `strconv.ParseInt(s, 10, 64)`: `some v` on success, `none`
when Go would return a non-nil error (syntax or range). -/
def goParseInt64 (s : String) : Option Int :=
  match s.data with
  | [] => none
  | c :: rest =>
    if c = '+' then
      (decDigitsVal rest).bind fun n =>
        if n ≤ 2 ^ 63 - 1 then some (Int.ofNat n) else none
    else if c = '-' then
      (decDigitsVal rest).bind fun n =>
        if n ≤ 2 ^ 63 then some (-(Int.ofNat n)) else none
    else
      (decDigitsVal (c :: rest)).bind fun n =>
        if n ≤ 2 ^ 63 - 1 then some (Int.ofNat n) else none

/-! ## Model of `strconv.ParseFloat(s, 64)` success

`convertNumberLiteral` only looks at whether the error is nil, never at the
parsed value, so the model is a Boolean: does Go parse `s` as a 64-bit float
without error?  Following Go's `atof`:

* an optional sign followed by `inf`/`infinity` (case-insensitive), or the
  unsigned case-insensitive `nan`, succeeds;
* otherwise the mantissa is decimal digits with at most one dot (at least one
  digit overall) and an optional `e`/`E` exponent, or a `0x`/`0X` hex mantissa
  with a mandatory `p`/`P` exponent; underscores are accepted when each one
  sits between digits (or between the base prefix and a digit), per Go's
  `underscoreOK`;
* the exact decimal value must round to a finite `float64`: Go returns
  `ErrRange` (non-nil) exactly when the magnitude is at least
  `2^1024 − 2^970`, the halfway point above the largest finite value.
  Underflow to zero produces no error. -/

/-- Hexadecimal digit test. -/
def isHexDigitChar (c : Char) : Bool :=
  isDigitChar c || (97 ≤ c.toNat ∧ c.toNat ≤ 102) || (65 ≤ c.toNat ∧ c.toNat ≤ 70)

/-- Value of one hexadecimal digit (assumes `isHexDigitChar`). -/
def hexDigitVal (c : Char) : Nat :=
  if isDigitChar c then c.toNat - 48
  else if 97 ≤ c.toNat then c.toNat - 87
  else c.toNat - 55

/-- Go `underscoreOK` restricted to one digit class: every underscore must be
immediately preceded and followed by a digit of the class (`prevDigit` says
whether the position before the list head is a digit or base-prefix
character). -/
def underscoresOk (digit : Char → Bool) : Bool → List Char → Bool
  | _, [] => true
  | prevDigit, c :: rest =>
    if c = '_' then
      prevDigit && (match rest with
        | [] => false
        | d :: _ => digit d) && underscoresOk digit true rest
    else underscoresOk digit (digit c) rest

/-- Digits of a mantissa with underscores removed. -/
def stripUnderscores (cs : List Char) : List Char := cs.filter (fun c => c ≠ '_')

/-- Splits a mantissa character list at the first dot; fails if a second dot
occurs.  Returns (integer digits, fraction digits). -/
def splitMantissa : List Char → Option (List Char × List Char)
  | [] => some ([], [])
  | c :: rest =>
    if c = '.' then
      if rest.contains '.' then none else some ([], rest)
    else
      (splitMantissa rest).map fun p => (c :: p.1, p.2)

/-- Number of base-`b` digits of `n`, with an explicit fuel so the
definition is structurally recursive (fuel `n` always suffices). -/
def numDigitsF (b : Nat) : Nat → Nat → Nat
  | 0, _ => 0
  | _, 0 => 0
  | fuel + 1, n => 1 + numDigitsF b fuel (n / b)

/-- Number of base-`b` digits of `n` (0 for `n = 0`). -/
def numDigitsBase (b n : Nat) : Nat := numDigitsF b n n

/-- Overflow test for an exact value `m * 10^e10` (`m ≠ 0`): is the magnitude
at least `2^1024 − 2^970`?  Guarded so that gigantic exponents never force a
gigantic power computation (a value with at most `308 + k` digits before
scaling by `10^(-k)` is below `10^308`, hence finite). -/
def decOverflows (m : Nat) (e10 : Int) : Bool :=
  if m = 0 then false
  else if 0 ≤ e10 then
    if e10 > 400 then true
    else decide (m * 10 ^ e10.toNat ≥ 2 ^ 1024 - 2 ^ 970)
  else
    let k := (-e10).toNat
    if numDigitsBase 10 m ≤ 308 + k then false
    else decide (m ≥ (2 ^ 1024 - 2 ^ 970) * 10 ^ k)

/-- Overflow test for an exact value `m * 2^e2` (hex mantissas); same
threshold as `decOverflows`. -/
def binOverflows (m : Nat) (e2 : Int) : Bool :=
  if m = 0 then false
  else if 0 ≤ e2 then
    if e2 > 1100 then true
    else decide (m * 2 ^ e2.toNat ≥ 2 ^ 1024 - 2 ^ 970)
  else
    let k := (-e2).toNat
    if numDigitsBase 2 m ≤ 1023 + k then false
    else decide (m ≥ (2 ^ 1024 - 2 ^ 970) * 2 ^ k)

/-- Splits a character list at the first separator; returns the part before
it and, when a separator occurs, the part after it. -/
def splitAtFirst (isSep : Char → Bool) : List Char → (List Char × Option (List Char))
  | [] => ([], none)
  | c :: rest =>
    if isSep c then ([], some rest)
    else
      let (a, b) := splitAtFirst isSep rest
      (c :: a, b)

/-- Exponent part after `e`/`E` (or `p`/`P`): optional sign, then at least one
decimal digit, underscores between digits. -/
def parseExpPart (cs : List Char) : Option Int :=
  match cs with
  | [] => none
  | c :: rest =>
    let ds := if c = '+' ∨ c = '-' then rest else cs
    if underscoresOk isDigitChar false ds then
      match decDigitsVal (stripUnderscores ds) with
      | some n => some (if c = '-' then -(n : Int) else (n : Int))
      | none => none
    else none

/-- Decimal mantissa: underscores between digits, then digits with at most one
dot, at least one digit overall.  Returns the digit value and the number of
fraction digits. -/
def decMantissaVal (mant : List Char) : Option (Nat × Nat) :=
  if underscoresOk isDigitChar false mant then
    match splitMantissa (stripUnderscores mant) with
    | none => none
    | some (ip, fp) =>
      if (ip ++ fp) ≠ [] ∧ (ip ++ fp).all isDigitChar then
        some ((ip ++ fp).foldl (fun acc c => acc * 10 + (c.toNat - 48)) 0, fp.length)
      else none
  else none

/-- Decimal form of `strconv.ParseFloat` (after sign stripping): mantissa,
optional `e`/`E` exponent, finite-range check. -/
def decFloatOk (body : List Char) : Bool :=
  let p := splitAtFirst (fun c => c = 'e' ∨ c = 'E') body
  match decMantissaVal p.1 with
  | none => false
  | some mv =>
    match p.2 with
    | none => !decOverflows mv.1 (-(mv.2 : Int))
    | some ecs =>
      match parseExpPart ecs with
      | none => false
      | some e => !decOverflows mv.1 (e - (mv.2 : Int))

/-- Hex form of `strconv.ParseFloat` (after the `0x`/`0X` prefix): hex
mantissa with at most one dot, mandatory `p`/`P` exponent. -/
def hexFloatOk (afterPrefix : List Char) : Bool :=
  let p := splitAtFirst (fun c => c = 'p' ∨ c = 'P') afterPrefix
  match p.2 with
  | none => false
  | some ecs =>
    if underscoresOk isHexDigitChar true p.1 then
      match splitMantissa (stripUnderscores p.1) with
      | none => false
      | some ipfp =>
        if (ipfp.1 ++ ipfp.2) ≠ [] ∧ (ipfp.1 ++ ipfp.2).all isHexDigitChar then
          let m := (ipfp.1 ++ ipfp.2).foldl (fun acc c => acc * 16 + hexDigitVal c) 0
          match parseExpPart ecs with
          | none => false
          | some e => !binOverflows m (e - 4 * (ipfp.2.length : Int))
        else false
    else false

/-- Model of `strconv.ParseFloat(s, 64)` success: `true` iff Go returns a nil
error for `s`. -/
def goParseFloat64Ok (s : String) : Bool :=
  let cs := s.data
  match cs with
  | [] => false
  | c0 :: rest =>
    let low := cs.map goToLowerChar
    if low = "nan".data ∨ low = "inf".data ∨ low = "infinity".data then true
    else if (c0 = '+' ∨ c0 = '-') ∧
        (rest.map goToLowerChar = "inf".data ∨ rest.map goToLowerChar = "infinity".data) then
      true
    else
      let body := if c0 = '+' ∨ c0 = '-' then rest else cs
      match body with
      | '0' :: x :: hexRest =>
        if x = 'x' ∨ x = 'X' then hexFloatOk hexRest else decFloatOk body
      | _ => decFloatOk body

/-! ## Canonical AST (`internal/sql/ast`), restricted to the node kinds and
fields the ClickHouse converter produces

Nil-able Go fields that the converter can leave unset are `Option`.
`ast.SelectStmt` is special: `convertSelectQuery` mutates an
already-allocated object through its own pointer, so select statements live
in a heap (`St.selects`) and an `ast.Node` holding a `*ast.SelectStmt` is
`Node.selectRef addr`. -/

/-- `ast.SetOperation` (`ast.None` is the zero value). -/
inductive SetOp where
  | none
  | union
  | intersect
  | except
deriving DecidableEq, Repr

/-- `ast.JoinType` (the four values `parseJoinType` produces). -/
inductive JoinTy where
  | inner
  | left
  | right
  | full
deriving DecidableEq, Repr

/-- `ast.SortByDir` (default / ASC / DESC as used by `convertOrderExpr`). -/
inductive SortDir where
  | default
  | asc
  | desc
deriving DecidableEq, Repr

/-- `ast.FuncName` (the converter sets `Schema` and `Name`; the zero value of
an unset field is the empty string). -/
structure FuncName where
  schema : String := ""
  name : String := ""
deriving DecidableEq, Repr

/-- `ast.Alias` (the converter sets only `Aliasname`). -/
structure AliasObj where
  aliasname : Option String := Option.none
deriving DecidableEq, Repr

/-- `ast.RangeVar` (fields the converter sets). -/
structure RangeVarObj where
  schemaname : Option String := Option.none
  relname : Option String := Option.none
  location : Nat := 0
deriving DecidableEq, Repr

/-- `ast.TableName` (fields the converter sets; unset = empty string). -/
structure TableNameObj where
  schema : String := ""
  name : String := ""
deriving DecidableEq, Repr

mutual

/-- `ast.Node` values the ClickHouse converter produces.  A `*ast.List` held
in a typed field is modelled as a bare `List Node`; an `ast.List` used as an
`ast.Node` value is `Node.list`. -/
inductive Node where
  | todo
  | str (s : String)
  | list (items : List Node)
  | selectRef (addr : Nat)
  | resTarget (name : Option String) (val : Node) (location : Nat)
  | rangeVar (v : RangeVarObj)
  | rangeSubselect (subquery : Node) (aliasF : Option AliasObj)
  | joinExpr (jointype : JoinTy) (larg : Node) (rarg : Node) (quals : Option Node)
  | commonTableExpr (ctename : Option String) (ctequery : Node) (location : Nat)
  | insertStmt (relation : RangeVarObj) (cols : List Node) (selectStmt : Option Node)
      (returningList : List Node)
  | createTableStmt (name : TableNameObj) (ifNotExists : Bool) (cols : List ColumnDefObj)
  | createSchemaStmt (name : Option String) (ifNotExists : Bool)
  | funcCall (func : FuncName) (funcname : List Node) (args : List Node)
      (over : Option WindowDefObj) (location : Nat)
  | aExpr (kind : Nat) (name : List Node) (lexpr : Option Node) (rexpr : Option Node)
      (location : Nat)
  | aConst (val : Node) (location : Nat)
  | integer (ival : Int)
  | float (str : String)
  | paramRef (number : Nat) (location : Nat) (dollar : Bool)
  | columnRef (fields : List Node) (location : Nat)
  | typeCast (arg : Node) (typeName : Option TypeNameObj) (location : Nat)
  | caseExpr (arg : Option Node) (args : List Node) (defresult : Option Node) (location : Nat)
  | nullTest (arg : Node) (nulltesttype : Nat) (location : Nat)
  | sortBy (node : Node) (sortbyDir : SortDir) (location : Nat)
  | rangeFunction (lateral : Bool) (functions : List Node) (aliasF : Option AliasObj)
  | columnDef (d : ColumnDefObj)

/-- `ast.TypeName` (fields `convertColumnType` sets). -/
inductive TypeNameObj where
  | mk (name : String) (names : List Node)

/-- `ast.WindowDef` (fields `convertWindowDef` sets). -/
inductive WindowDefObj where
  | mk (partitionClause : Option (List Node)) (orderClause : Option (List Node))
      (location : Nat)

/-- `ast.ColumnDef` (fields `convertColumnDef` sets). -/
inductive ColumnDefObj where
  | mk (colname : String) (typeName : Option TypeNameObj) (isNotNull : Bool)

end

/-- Name of a `TypeNameObj`. -/
def TypeNameObj.name : TypeNameObj → String
  | .mk n _ => n

/-- Names list of a `TypeNameObj`. -/
def TypeNameObj.names : TypeNameObj → List Node
  | .mk _ ns => ns

/-- `ast.WithClause` (fields `convertWithClause` sets). -/
structure WithClauseObj where
  ctes : List Node
  location : Nat

/-- One heap object for an `ast.SelectStmt`.  Defaults are the Go zero
values of the fields `convertSelectQuery` can leave unset. -/
structure SelectStmtObj where
  distinctClause : Option (List Node) := Option.none
  targetList : Option (List Node) := Option.none
  fromClause : Option (List Node) := Option.none
  whereClause : Option Node := Option.none
  groupClause : Option (List Node) := Option.none
  havingClause : Option Node := Option.none
  sortClause : Option (List Node) := Option.none
  limitOffset : Option Node := Option.none
  limitCount : Option Node := Option.none
  valuesLists : Option (List Node) := Option.none
  withClause : Option WithClauseObj := Option.none
  op : SetOp := SetOp.none
  all : Bool := false
  larg : Option Nat := Option.none
  rarg : Option Nat := Option.none

/-- Conversion state: the converter receiver `cc` (whose single field is
`paramCount`) together with the heap of allocated `ast.SelectStmt` objects
(Go's memory, not converter state). -/
structure St where
  paramCount : Nat := 0
  selects : List SelectStmtObj := []

/-- Update the element at an index of a list (no-op when out of range). -/
def listUpdate {α : Type} : List α → Nat → (α → α) → List α
  | [], _, _ => []
  | x :: xs, 0, f => f x :: xs
  | x :: xs, n + 1, f => x :: listUpdate xs n f

/-- Allocate a fresh `ast.SelectStmt` object; returns its address. -/
def St.allocSelect (s : St) (o : SelectStmtObj) : Nat × St :=
  (s.selects.length, { s with selects := s.selects ++ [o] })

/-- Mutate the `ast.SelectStmt` object at an address. -/
def St.updSelect (s : St) (a : Nat) (f : SelectStmtObj → SelectStmtObj) : St :=
  { s with selects := listUpdate s.selects a f }

/-! ## The ClickHouse parse tree (`chparser`), restricted to the fields
`convert.go` reads

Struct types referenced only from a single `ChExpr` node kind are inlined
into that constructor; struct types referenced from several places are their
own member of the mutual family (or a plain structure when they contain no
expression).  A nil-able pointer field is an `Option`. -/

/-- `chparser.Ident`. -/
structure ChIdent where
  name : String
  pos : Nat := 0
deriving DecidableEq, Repr

/-- `chparser.TableIdentifier`. -/
structure ChTableIdentifier where
  database : Option ChIdent := Option.none
  table : Option ChIdent := Option.none
  pos : Nat := 0
deriving DecidableEq, Repr

/-- `chparser.NestedIdentifier`. -/
structure ChNestedIdentifier where
  ident : Option ChIdent := Option.none
  dotIdent : Option ChIdent := Option.none
  pos : Nat := 0
deriving DecidableEq, Repr

/-- `chparser.NumberLiteral`. -/
structure ChNumberLiteral where
  literal : String
  pos : Nat := 0
deriving DecidableEq, Repr

/-- `chparser.StringLiteral`. -/
structure ChStringLiteral where
  literal : String
  pos : Nat := 0
deriving DecidableEq, Repr

/-- `chparser.QueryParam`. -/
structure ChQueryParam where
  pos : Nat := 0
deriving DecidableEq, Repr

/-- `chparser.PlaceHolder`. -/
structure ChPlaceHolder where
  pos : Nat := 0
deriving DecidableEq, Repr

/-- The `chparser.ColumnType` interface, seen through the one method the
converter calls (`Type() string`). -/
structure ChColumnType where
  typeName : String
deriving DecidableEq, Repr

/-- `chparser.ColumnDef` (`notNull` models `col.NotNull != nil`). -/
structure ChColumnDef where
  name : Option ChNestedIdentifier := Option.none
  type? : Option ChColumnType := Option.none
  notNull : Bool := false
deriving DecidableEq, Repr

/-- `chparser.ColumnNamesExpr`. -/
structure ChColumnNamesExpr where
  columnNames : List ChNestedIdentifier
deriving DecidableEq, Repr

/-- `chparser.AlterTable` (no field read by the converter). -/
structure ChAlterTable where
deriving DecidableEq, Repr

/-- `chparser.DropStmt` (no field read by the converter). -/
structure ChDropStmt where
deriving DecidableEq, Repr

/-- `chparser.OptimizeStmt` (no field read by the converter). -/
structure ChOptimizeStmt where
deriving DecidableEq, Repr

/-- `chparser.DescribeStmt` (no field read by the converter). -/
structure ChDescribeStmt where
deriving DecidableEq, Repr

/-- `chparser.ExplainStmt` (no field read by the converter). -/
structure ChExplainStmt where
deriving DecidableEq, Repr

/-- `chparser.ShowStmt` (no field read by the converter). -/
structure ChShowStmt where
deriving DecidableEq, Repr

/-- `chparser.TruncateTable` (no field read by the converter). -/
structure ChTruncateTable where
deriving DecidableEq, Repr

mutual

/-- `chparser.Expr`: the dialect node kinds dispatched by `convert`, plus the
kinds that occur as children of other nodes, plus `otherNode` standing for
any node type without its own case (it falls to the `default` branch). -/
inductive ChExpr where
  | selectQuery (q : ChSelectQuery)
  | insertStmt (i : ChInsertStmt)
  | alterTable (a : ChAlterTable)
  | createTable (ct : ChCreateTable)
  | createDatabase (name : Option ChExpr) (ifNotExists : Bool)
  | dropStmt (d : ChDropStmt)
  | optimizeStmt (o : ChOptimizeStmt)
  | describeStmt (d : ChDescribeStmt)
  | explainStmt (e : ChExplainStmt)
  | showStmt (sh : ChShowStmt)
  | truncateTable (t : ChTruncateTable)
  | ident (id : ChIdent)
  | columnExpr (expr : ChExpr)
  | functionExpr (fn : ChFunctionExpr)
  | binaryOperation (leftExpr : ChExpr) (operation : String) (rightExpr : ChExpr) (pos : Nat)
  | numberLiteral (num : ChNumberLiteral)
  | stringLiteral (str : ChStringLiteral)
  | queryParam (p : ChQueryParam)
  | nestedIdentifier (n : ChNestedIdentifier)
  | orderExpr (expr : ChExpr) (direction : String) (pos : Nat)
  | placeHolder (p : ChPlaceHolder)
  | joinTableExpr (table : Option ChTableExpr)
  | castExpr (expr : ChExpr) (asType : Option ChExpr) (pos : Nat)
  | caseExpr (expr : Option ChExpr) (whens : List (Option ChWhenClause))
      (elseExpr : Option ChExpr) (pos : Nat)
  | windowFunctionExpr (function : ChFunctionExpr) (overExpr : Option ChExpr)
  | isNullExpr (expr : ChExpr) (pos : Nat)
  | isNotNullExpr (expr : ChExpr) (pos : Nat)
  | unaryExpr (kind : String) (expr : ChExpr) (pos : Nat)
  | mapLiteral (keyValues : List ChKeyValue) (pos : Nat)
  | paramExprList (pl : ChParamExprList)
  | tableExpr (te : ChTableExpr)
  | joinExpr (je : ChJoinExpr)
  | tableIdentifier (ti : ChTableIdentifier)
  | selectItem (si : ChSelectItem)
  | windowExpr (w : ChWindowExpr)
  | columnExprList (l : ChColumnExprList)
  | columnTypeExpr (t : ChColumnType)
  | columnDef (cd : ChColumnDef)
  | otherNode (kind : String)

/-- `chparser.SelectQuery`. -/
inductive ChSelectQuery where
  | mk (selectItems : List ChSelectItem)
      (fromC : Option ChFromClause)
      (whereC : Option ChWhereClause)
      (groupBy : Option ChGroupByClause)
      (having : Option ChHavingClause)
      (orderBy : Option ChOrderByClause)
      (withC : Option ChWithClause)
      (arrayJoin : Option ChArrayJoinClause)
      (hasDistinct : Bool)
      (limit : Option ChLimitClause)
      (unionAll : Option ChSelectQuery)
      (unionDistinct : Option ChSelectQuery)
      (exceptQ : Option ChSelectQuery)

/-- `chparser.SelectItem`. -/
inductive ChSelectItem where
  | mk (expr : ChExpr) (aliasF : Option ChIdent) (pos : Nat)

/-- `chparser.FromClause`. -/
inductive ChFromClause where
  | mk (expr : Option ChExpr)

/-- `chparser.WhereClause`. -/
inductive ChWhereClause where
  | mk (expr : ChExpr)

/-- `chparser.GroupByClause`. -/
inductive ChGroupByClause where
  | mk (expr : Option ChExpr)

/-- `chparser.HavingClause`. -/
inductive ChHavingClause where
  | mk (expr : ChExpr)

/-- `chparser.OrderByClause`. -/
inductive ChOrderByClause where
  | mk (items : List ChExpr)

/-- `chparser.LimitClause`. -/
inductive ChLimitClause where
  | mk (limit : Option ChExpr) (offset : Option ChExpr)

/-- `chparser.WithClause`. -/
inductive ChWithClause where
  | mk (ctes : List ChCTEStmt) (pos : Nat)

/-- `chparser.CTEStmt` (in this grammar `Expr` holds the CTE name and
`Alias` holds the CTE body). -/
inductive ChCTEStmt where
  | mk (expr : ChExpr) (aliasF : ChExpr) (pos : Nat)

/-- `chparser.ArrayJoinClause`. -/
inductive ChArrayJoinClause where
  | mk (expr : ChExpr) (type : String)

/-- `chparser.TableExpr`. -/
inductive ChTableExpr where
  | mk (expr : ChExpr) (aliasF : Option ChAliasExpr)

/-- `chparser.AliasExpr` as read through `expr.Alias.Alias`. -/
inductive ChAliasExpr where
  | mk (aliasF : ChExpr)

/-- `chparser.JoinExpr`. -/
inductive ChJoinExpr where
  | mk (left : Option ChExpr) (right : Option ChExpr) (modifiers : List String)
      (constraints : Option ChExpr)

/-- `chparser.FunctionExpr`. -/
inductive ChFunctionExpr where
  | mk (name : ChIdent) (params : Option ChParamExprList) (pos : Nat)

/-- `chparser.ParamExprList`. -/
inductive ChParamExprList where
  | mk (items : Option ChColumnExprList)

/-- `chparser.ColumnExprList`. -/
inductive ChColumnExprList where
  | mk (items : List ChExpr)

/-- `chparser.WhenClause`. -/
inductive ChWhenClause where
  | mk (whenE : ChExpr) (thenE : ChExpr)

/-- `chparser.WindowExpr`. -/
inductive ChWindowExpr where
  | mk (partitionBy : Option ChPartitionByClause) (orderBy : Option ChOrderByClause)
      (pos : Nat)

/-- `chparser.PartitionByClause`. -/
inductive ChPartitionByClause where
  | mk (expr : Option ChExpr)

/-- `chparser.KeyValue` of a map literal. -/
inductive ChKeyValue where
  | mk (key : ChStringLiteral) (value : Option ChExpr)

/-- `chparser.InsertStmt`. -/
inductive ChInsertStmt where
  | mk (table : ChExpr) (columnNames : Option ChColumnNamesExpr)
      (values : List ChAssignmentValues) (selectExpr : Option ChExpr)

/-- `chparser.AssignmentValues`. -/
inductive ChAssignmentValues where
  | mk (values : List ChExpr)

/-- `chparser.CreateTable` (`tableSchema` models the nil-able
`*chparser.TableSchema` through its `Columns` slice). -/
inductive ChCreateTable where
  | mk (name : Option ChTableIdentifier) (ifNotExists : Bool)
      (tableSchema : Option (List ChExpr))

end

/-! ## The converter (`convert.go`)

Conventions:

* the Go nil-receiver guards at the top of per-kind converters are
  unreachable from the dispatch (which is only entered with a non-nil node)
  and are omitted, except in `convertNumberLiteral` whose nil case is kept
  through an `Option` argument;
* converters that neither read nor write the converter state are pure
  functions (their Go originals never touch the receiver `c`). -/

/-- `identifier`. -/
def identifier (id : String) : String := goToLower id

/-- `NewIdentifier`. -/
def NewIdentifier (t : String) : Node := Node.str (identifier t)

/-- `todo` (its debug logging is I/O only and does not affect the result). -/
def todo (_n : ChExpr) : Node := Node.todo

/-- `convertIdent`. -/
def convertIdent (id : ChIdent) : Node := Node.str (identifier id.name)

/-- `convertTableIdentifier`. -/
def convertTableIdentifier (ident : ChTableIdentifier) : RangeVarObj :=
  { schemaname := ident.database.map fun d => identifier d.name
    relname := ident.table.map fun t => identifier t.name
    location := ident.pos }

/-- `convertNumberLiteral` (`intResult` captures Go's early return out of the
integer branch). -/
def convertNumberLiteral (num : Option ChNumberLiteral) : Node :=
  match num with
  | Option.none => Node.aConst (Node.integer 0) 0
  | some n =>
    if n.literal = "" then Node.aConst (Node.integer 0) 0
    else
      let numStr := n.literal
      let intResult : Option Node :=
        if ¬goContainsAny numStr ".eE" then
          (goParseInt64 numStr).map fun ival => Node.aConst (Node.integer ival) n.pos
        else Option.none
      match intResult with
      | some r => r
      | Option.none =>
        if goParseFloat64Ok numStr then Node.aConst (Node.float numStr) n.pos
        else Node.aConst (Node.integer 0) n.pos

/-- `convertStringLiteral` (the position is moved one byte left, onto the
opening quote, when positive). -/
def convertStringLiteral (str : ChStringLiteral) : Node :=
  let pos := if str.pos > 0 then str.pos - 1 else str.pos
  Node.aConst (Node.str str.literal) pos

/-- `convertQueryParam`: bumps the per-statement counter and numbers the
parameter with the new value. -/
def convertQueryParam (param : ChQueryParam) (s : St) : Node × St :=
  let s := { s with paramCount := s.paramCount + 1 }
  (Node.paramRef s.paramCount param.pos false, s)

/-- `convertPlaceHolder`: same counter as `convertQueryParam`. -/
def convertPlaceHolder (ph : ChPlaceHolder) (s : St) : Node × St :=
  let s := { s with paramCount := s.paramCount + 1 }
  (Node.paramRef s.paramCount ph.pos false, s)

/-- `convertNestedIdentifier`. -/
def convertNestedIdentifier (nested : ChNestedIdentifier) : Node :=
  let fields :=
    (match nested.ident with
      | some i => [Node.str (identifier i.name)]
      | Option.none => []) ++
    (match nested.dotIdent with
      | some d => [Node.str (identifier d.name)]
      | Option.none => [])
  Node.columnRef fields nested.pos

/-- `parseJoinType`. -/
def parseJoinType (joinType : String) : JoinTy :=
  let upperType := goToUpper joinType
  if goContains upperType "LEFT" then JoinTy.left
  else if goContains upperType "RIGHT" then JoinTy.right
  else if goContains upperType "FULL" then JoinTy.full
  else if goContains upperType "INNER" then JoinTy.inner
  else JoinTy.inner

/-- The switch body of `mapClickHouseType`, taking the already lower-cased
type string; cases in source order. -/
def mapCHTypeLower (chType : String) : String :=
  if goStartsWith chType "uint8" then "uint8"
  else if goStartsWith chType "uint16" then "uint16"
  else if goStartsWith chType "uint32" then "uint32"
  else if goStartsWith chType "uint64" then "uint64"
  else if goStartsWith chType "int8" then "int8"
  else if goStartsWith chType "int16" then "int16"
  else if goStartsWith chType "int32" then "int32"
  else if goStartsWith chType "int64" then "int64"
  else if goStartsWith chType "int128" then "numeric"
  else if goStartsWith chType "int256" then "numeric"
  else if goStartsWith chType "float32" then "real"
  else if goStartsWith chType "float64" then "double precision"
  else if goStartsWith chType "decimal" then "numeric"
  else if chType = "string" then "text"
  else if goStartsWith chType "fixedstring" then "varchar"
  else if chType = "date" then "date"
  else if chType = "date32" then "date"
  else if chType = "datetime" then "timestamp"
  else if chType = "datetime64" then "timestamp"
  else if chType = "bool" then "boolean"
  else if chType = "uuid" then "uuid"
  else if goStartsWith chType "array" then "text[]"
  else if goContains chType "json" then "jsonb"
  else "text"

/-- `mapClickHouseType`: lower-cases its argument, then applies the switch. -/
def mapClickHouseType (chType : String) : String :=
  mapCHTypeLower (goToLower chType)

/-- `convertColumnType`. -/
def convertColumnType (colType : Option ChColumnType) : TypeNameObj :=
  match colType with
  | Option.none => TypeNameObj.mk "text" [NewIdentifier "text"]
  | some ct =>
    let mappedType := mapClickHouseType ct.typeName
    TypeNameObj.mk mappedType [NewIdentifier mappedType]

/-- `convertColumnDef`. -/
def convertColumnDef (col : ChColumnDef) : Node :=
  let colName : String :=
    match col.name with
    | Option.none => ""
    | some n =>
      match n.ident with
      | some i => identifier i.name
      | Option.none =>
        match n.dotIdent with
        | some d => identifier d.name
        | Option.none => ""
  let typeName : Option TypeNameObj := col.type?.map fun t => convertColumnType (some t)
  Node.columnDef (ColumnDefObj.mk colName typeName col.notNull)

/-- `convertColumnNames` (both the `Ident` and the `DotIdent` of an entry are
appended when present). -/
def convertColumnNames (colNames : Option ChColumnNamesExpr) : List Node :=
  match colNames with
  | Option.none => []
  | some cn =>
    cn.columnNames.foldl
      (fun acc col =>
        let acc :=
          match col.ident with
          | some i => acc ++ [Node.str (identifier i.name)]
          | Option.none => acc
        match col.dotIdent with
        | some d => acc ++ [Node.str (identifier d.name)]
        | Option.none => acc)
      []

/-- `convertCreateTable`: a single-part name that the ClickHouse grammar put
into the `Database` slot is reinterpreted as the table name with no schema. -/
def convertCreateTable (stmt : ChCreateTable) : Node :=
  match stmt with
  | ChCreateTable.mk name ifNotExists tableSchema =>
    let schema0 : Option String := name.bind fun nm => nm.database.map fun d => identifier d.name
    let table0 : Option String := name.bind fun nm => nm.table.map fun t => identifier t.name
    let st : Option String × Option String :=
      match table0, name with
      | Option.none, some nm =>
        match nm.database with
        | some d => (Option.none, some (identifier d.name))
        | Option.none => (schema0, table0)
      | _, _ => (schema0, table0)
    let tableName : TableNameObj := { schema := st.1.getD "", name := st.2.getD "" }
    let cols : List ColumnDefObj :=
      match tableSchema with
      | some columns =>
        if columns.length > 0 then
          columns.foldl
            (fun acc col =>
              match col with
              | ChExpr.columnDef cd =>
                match convertColumnDef cd with
                | Node.columnDef converted => acc ++ [converted]
                | _ => acc
              | _ => acc)
            []
        else []
      | Option.none => []
    Node.createTableStmt tableName ifNotExists cols

/-- `convertCreateDatabase` (the name pointer always points at the local
string variable, so the canonical node's name is always present). -/
def convertCreateDatabase (name : Option ChExpr) (ifNotExists : Bool) : Node :=
  let schemaName : String :=
    match name with
    | some (ChExpr.ident id) => identifier id.name
    | _ => ""
  Node.createSchemaStmt (some schemaName) ifNotExists

/-- `convertDropStmt`. -/
def convertDropStmt (_stmt : ChDropStmt) : Node := Node.todo

/-- `convertAlterTable`. -/
def convertAlterTable (_stmt : ChAlterTable) : Node := Node.todo

/-- `convertOptimizeStmt`. -/
def convertOptimizeStmt (_stmt : ChOptimizeStmt) : Node := Node.todo

/-- `convertDescribeStmt`. -/
def convertDescribeStmt (_stmt : ChDescribeStmt) : Node := Node.todo

/-- `convertExplainStmt`. -/
def convertExplainStmt (_stmt : ChExplainStmt) : Node := Node.todo

/-- `convertShowStmt`. -/
def convertShowStmt (_stmt : ChShowStmt) : Node := Node.todo

/-- `convertTruncateTable`. -/
def convertTruncateTable (_stmt : ChTruncateTable) : Node := Node.todo

/-- `convertTableExprToRangeVar`. -/
def convertTableExprToRangeVar (expr : ChExpr) : RangeVarObj :=
  match expr with
  | ChExpr.tableIdentifier ti => convertTableIdentifier ti
  | ChExpr.ident id => { relname := some (identifier id.name), location := id.pos }
  | _ => {}

mutual

/-- `convert`: the dispatch over dialect node kinds; any node type without
its own case falls to the default branch and becomes a `TODO` placeholder. -/
def convert (node : ChExpr) (s : St) : Node × St :=
  match node with
  | ChExpr.selectQuery n =>
    let r := convertSelectQuery n s
    (Node.selectRef r.1, r.2)
  | ChExpr.insertStmt n => convertInsertStmt n s
  | ChExpr.alterTable n => (convertAlterTable n, s)
  | ChExpr.createTable n => (convertCreateTable n, s)
  | ChExpr.createDatabase nm ine => (convertCreateDatabase nm ine, s)
  | ChExpr.dropStmt n => (convertDropStmt n, s)
  | ChExpr.optimizeStmt n => (convertOptimizeStmt n, s)
  | ChExpr.describeStmt n => (convertDescribeStmt n, s)
  | ChExpr.explainStmt n => (convertExplainStmt n, s)
  | ChExpr.showStmt n => (convertShowStmt n, s)
  | ChExpr.truncateTable n => (convertTruncateTable n, s)
  | ChExpr.ident n => (convertIdent n, s)
  | ChExpr.columnExpr e => convertColumnExpr e s
  | ChExpr.functionExpr fn => convertFunctionExpr fn s
  | ChExpr.binaryOperation l op r p => convertBinaryOperation l op r p s
  | ChExpr.numberLiteral n => (convertNumberLiteral (some n), s)
  | ChExpr.stringLiteral n => (convertStringLiteral n, s)
  | ChExpr.queryParam p => convertQueryParam p s
  | ChExpr.nestedIdentifier n => (convertNestedIdentifier n, s)
  | ChExpr.orderExpr e d p => convertOrderExpr e d p s
  | ChExpr.placeHolder p => convertPlaceHolder p s
  | ChExpr.joinTableExpr t => convertJoinTableExpr t s
  | ChExpr.castExpr e a p => convertCastExpr e a p s
  | ChExpr.caseExpr e w el p => convertCaseExpr e w el p s
  | ChExpr.windowFunctionExpr f o => convertWindowFunctionExpr f o s
  | ChExpr.isNullExpr e p => convertIsNullExpr e p s
  | ChExpr.isNotNullExpr e p => convertIsNotNullExpr e p s
  | ChExpr.unaryExpr k e p => convertUnaryExpr k e p s
  | ChExpr.mapLiteral kvs p => convertMapLiteral kvs p s
  | ChExpr.paramExprList pl => convertParamExprList pl s
  | n => (todo n, s)
termination_by (sizeOf node, 0)

/-- `convertSelectQuery`: converts the clauses in source order, allocates the
`ast.SelectStmt` object, then handles UNION ALL / UNION DISTINCT / EXCEPT by
mutating the allocated object (`Op`, `All`, `Larg := selectStmt` itself,
`Rarg := ` the converted right query).  Returns the object's address. -/
def convertSelectQuery (stmt : ChSelectQuery) (s : St) : Nat × St :=
  match stmt with
  | ChSelectQuery.mk selectItems fromC whereC groupBy having orderBy withC arrayJoin
      hasDistinct limit unionAll unionDistinct exceptQ =>
    let r1 := convertSelectItems selectItems s
    let r2 := convertFromClause fromC r1.2
    let r3 := convertWhereClause whereC r2.2
    let r4 := convertGroupByClause groupBy r3.2
    let r5 := convertHavingClause having r4.2
    let r6 := convertOrderByClause orderBy r5.2
    let r7 := convertWithClause withC r6.2
    let rFrom := selectArrayJoinStep r2.1 arrayJoin r7.2
    let distinctClause : Option (List Node) := if hasDistinct then some [] else Option.none
    let rLimit := selectLimitStep limit rFrom.2
    let obj : SelectStmtObj :=
      { targetList := some r1.1
        fromClause := some rFrom.1
        whereClause := r3.1
        groupClause := some r4.1
        havingClause := r5.1
        sortClause := some r6.1
        withClause := r7.1
        distinctClause := distinctClause
        limitCount := rLimit.1
        limitOffset := rLimit.2.1 }
    let ra := (rLimit.2.2).allocSelect obj
    selectSetOpStep ra.1 unionAll unionDistinct exceptQ ra.2
termination_by (sizeOf stmt, 0)
decreasing_by
  all_goals simp_wf
  all_goals apply Prod.Lex.left
  all_goals simp_arith

/-- The `if stmt.ArrayJoin != nil` block of `convertSelectQuery`. -/
def selectArrayJoinStep (fromClause : List Node) (arrayJoin : Option ChArrayJoinClause)
    (s : St) : List Node × St :=
  match arrayJoin with
  | some aj => mergeArrayJoinIntoFrom fromClause aj s
  | Option.none => (fromClause, s)
termination_by (sizeOf arrayJoin, 3)

/-- The `if stmt.Limit != nil` block of `convertSelectQuery`: computes
(`LimitCount`, `LimitOffset`). -/
def selectLimitStep (limit : Option ChLimitClause) (s : St) :
    Option Node × Option Node × St :=
  match limit with
  | some l =>
    let rc := convertLimitClause (some l) s
    match l with
    | ChLimitClause.mk _ (some off) =>
      let ro := convert off rc.2
      (rc.1, some ro.1, ro.2)
    | ChLimitClause.mk _ Option.none => (rc.1, Option.none, rc.2)
  | Option.none => (Option.none, Option.none, s)
termination_by (sizeOf limit, 1)

/-- The UNION ALL / UNION DISTINCT / EXCEPT tail of `convertSelectQuery`:
mutates the freshly allocated object at `a` — in particular `Larg` is set to
`a` itself — and converts the right operand into `Rarg`. -/
def selectSetOpStep (a : Nat) (unionAll unionDistinct exceptQ : Option ChSelectQuery)
    (s : St) : Nat × St :=
  match unionAll with
  | some q =>
    let s1 := s.updSelect a fun o => { o with op := SetOp.union, all := true, larg := some a }
    let rr := convertSelectQuery q s1
    let s2 := rr.2.updSelect a fun o => { o with rarg := some rr.1 }
    (a, s2)
  | Option.none =>
    match unionDistinct with
    | some q =>
      let s1 := s.updSelect a fun o =>
        { o with op := SetOp.union, all := false, larg := some a }
      let rr := convertSelectQuery q s1
      let s2 := rr.2.updSelect a fun o => { o with rarg := some rr.1 }
      (a, s2)
    | Option.none =>
      match exceptQ with
      | some q =>
        let s1 := s.updSelect a fun o => { o with op := SetOp.except, larg := some a }
        let rr := convertSelectQuery q s1
        let s2 := rr.2.updSelect a fun o => { o with rarg := some rr.1 }
        (a, s2)
      | Option.none => (a, s)
termination_by (sizeOf unionAll + sizeOf unionDistinct + sizeOf exceptQ, 0)

/-- `convertSelectItems` (the loop body of the Go `for`). -/
def convertSelectItems (items : List ChSelectItem) (s : St) : List Node × St :=
  match items with
  | [] => ([], s)
  | item :: rest =>
    let r := convertSelectItem item s
    let rr := convertSelectItems rest r.2
    (r.1 :: rr.1, rr.2)
termination_by (sizeOf items, 0)

/-- `convertSelectItem` (the alias, when present, is lower-cased). -/
def convertSelectItem (item : ChSelectItem) (s : St) : Node × St :=
  match item with
  | ChSelectItem.mk expr aliasF pos =>
    let name : Option String := aliasF.map fun a => identifier a.name
    let r := convert expr s
    (Node.resTarget name r.1 pos, r.2)
termination_by (sizeOf item, 0)

/-- `convertFromClause`. -/
def convertFromClause (fromC : Option ChFromClause) (s : St) : List Node × St :=
  match fromC with
  | Option.none => ([], s)
  | some (ChFromClause.mk e) =>
    match e with
    | some expr =>
      let r := convertFromExpr (some expr) s
      ([r.1], r.2)
    | Option.none => ([], s)
termination_by (sizeOf fromC, 0)

/-- `convertFromExpr`. -/
def convertFromExpr (expr : Option ChExpr) (s : St) : Node × St :=
  match expr with
  | Option.none => (Node.todo, s)
  | some (ChExpr.tableExpr te) => convertTableExpr te s
  | some (ChExpr.joinExpr je) => convertJoinExpr je s
  | some e => convert e s
termination_by (sizeOf expr, 0)

/-- `convertTableExpr`: a table identifier becomes a `RangeVar`, a subquery
becomes a `RangeSubselect` whose alias name is taken verbatim from the alias
identifier (not lower-cased); any other inner expression is converted
directly and the alias is dropped. -/
def convertTableExpr (expr : ChTableExpr) (s : St) : Node × St :=
  match expr with
  | ChTableExpr.mk e aliasF =>
    match e with
    | ChExpr.tableIdentifier ti => (Node.rangeVar (convertTableIdentifier ti), s)
    | ChExpr.selectQuery q =>
      let r := convert (ChExpr.selectQuery q) s
      let al : Option AliasObj :=
        match aliasF with
        | some (ChAliasExpr.mk (ChExpr.ident aliasIdent)) =>
          some { aliasname := some aliasIdent.name }
        | _ => Option.none
      (Node.rangeSubselect r.1 al, r.2)
    | eOther => convert eOther s
termination_by (sizeOf expr, 0)

/-- `convertJoinExpr`. -/
def convertJoinExpr (join : ChJoinExpr) (s : St) : Node × St :=
  match join with
  | ChJoinExpr.mk left right modifiers constraints =>
    let rl := convertFromExpr left s
    let rr := convertFromExpr right rl.2
    let joinType := modifiers.foldl
      (fun jt m =>
        let modUpper := goToUpper m
        if modUpper = "LEFT" ∨ modUpper = "RIGHT" ∨ modUpper = "FULL" ∨ modUpper = "INNER"
        then modUpper ++ " " ++ jt
        else jt)
      "JOIN"
    let jointype := parseJoinType joinType
    let rq : Option Node × St :=
      match constraints with
      | some con =>
        let rc := convert con rr.2
        (some rc.1, rc.2)
      | Option.none => (Option.none, rr.2)
    (Node.joinExpr jointype rl.1 rr.1 rq.1, rq.2)
termination_by (sizeOf join, 0)

/-- `convertWhereClause`. -/
def convertWhereClause (whereC : Option ChWhereClause) (s : St) : Option Node × St :=
  match whereC with
  | Option.none => (Option.none, s)
  | some (ChWhereClause.mk e) =>
    let r := convert e s
    (some r.1, r.2)
termination_by (sizeOf whereC, 0)

/-- `convertGroupByClause`. -/
def convertGroupByClause (groupBy : Option ChGroupByClause) (s : St) : List Node × St :=
  match groupBy with
  | Option.none => ([], s)
  | some (ChGroupByClause.mk e) =>
    match e with
    | some expr =>
      let r := convert expr s
      ([r.1], r.2)
    | Option.none => ([], s)
termination_by (sizeOf groupBy, 0)

/-- `convertHavingClause`. -/
def convertHavingClause (having : Option ChHavingClause) (s : St) : Option Node × St :=
  match having with
  | Option.none => (Option.none, s)
  | some (ChHavingClause.mk e) =>
    let r := convert e s
    (some r.1, r.2)
termination_by (sizeOf having, 0)

/-- `convertOrderByClause`. -/
def convertOrderByClause (orderBy : Option ChOrderByClause) (s : St) : List Node × St :=
  match orderBy with
  | Option.none => ([], s)
  | some (ChOrderByClause.mk items) => convertExprList items s
termination_by (sizeOf orderBy, 0)

/-- The shared element-wise conversion loop (`for … { convert(item) }`). -/
def convertExprList (items : List ChExpr) (s : St) : List Node × St :=
  match items with
  | [] => ([], s)
  | e :: rest =>
    let r := convert e s
    let rr := convertExprList rest r.2
    (r.1 :: rr.1, rr.2)
termination_by (sizeOf items, 0)

/-- `convertLimitClause`. -/
def convertLimitClause (limit : Option ChLimitClause) (s : St) : Option Node × St :=
  match limit with
  | Option.none => (Option.none, s)
  | some (ChLimitClause.mk l _) =>
    match l with
    | Option.none => (Option.none, s)
    | some le =>
      let r := convert le s
      (some r.1, r.2)
termination_by (sizeOf limit, 0)

/-- `convertWithClause`. -/
def convertWithClause (withC : Option ChWithClause) (s : St) : Option WithClauseObj × St :=
  match withC with
  | Option.none => (Option.none, s)
  | some (ChWithClause.mk ctes pos) =>
    let r := convertCTEList ctes s
    (some { ctes := r.1, location := pos }, r.2)
termination_by (sizeOf withC, 0)

/-- The CTE loop of `convertWithClause`. -/
def convertCTEList (ctes : List ChCTEStmt) (s : St) : List Node × St :=
  match ctes with
  | [] => ([], s)
  | cte :: rest =>
    let r := convertCTE cte s
    let rr := convertCTEList rest r.2
    (r.1 :: rr.1, rr.2)
termination_by (sizeOf ctes, 0)

/-- `convertCTE` (in this grammar the CTE body sits in the `Alias` field). -/
def convertCTE (cte : ChCTEStmt) (s : St) : Node × St :=
  match cte with
  | ChCTEStmt.mk expr aliasF pos =>
    let cteName : Option String :=
      match expr with
      | ChExpr.ident id => some (identifier id.name)
      | _ => Option.none
    let r := convert aliasF s
    (Node.commonTableExpr cteName r.1 pos, r.2)
termination_by (sizeOf cte, 0)

/-- `convertInsertStmt`. -/
def convertInsertStmt (stmt : ChInsertStmt) (s : St) : Node × St :=
  match stmt with
  | ChInsertStmt.mk table columnNames values selectExpr =>
    let relation := convertTableExprToRangeVar table
    let cols := convertColumnNames columnNames
    let rv : Option Node × St :=
      if values.length > 0 then
        let r := convertValues values s
        let ra := r.2.allocSelect
          { fromClause := some [], targetList := some [], valuesLists := some r.1 }
        (some (Node.selectRef ra.1), ra.2)
      else (Option.none, s)
    let rsel : Option Node × St :=
      match selectExpr with
      | some se =>
        let r := convert se rv.2
        (some r.1, r.2)
      | Option.none => (rv.1, rv.2)
    (Node.insertStmt relation cols rsel.1 [], rsel.2)
termination_by (sizeOf stmt, 0)

/-- `convertValues` (each value tuple becomes an inner `ast.List`). -/
def convertValues (values : List ChAssignmentValues) (s : St) : List Node × St :=
  match values with
  | [] => ([], s)
  | ChAssignmentValues.mk vs :: rest =>
    let r := convertExprList vs s
    let rr := convertValues rest r.2
    (Node.list r.1 :: rr.1, rr.2)
termination_by (sizeOf values, 0)

/-- `convertFunctionExpr`: lower-cases the name; a `sqlc_`-prefixed name
(the canonicalized spelling of the rejected dotted `sqlc.…` form) is split
back into schema `sqlc` plus the suffix. -/
def convertFunctionExpr (fn : ChFunctionExpr) (s : St) : Node × St :=
  match fn with
  | ChFunctionExpr.mk name params pos =>
    let funcName := identifier name.name
    let sb : String × String :=
      if goStartsWith funcName "sqlc_" then ("sqlc", goTrimPrefixStr funcName "sqlc_")
      else ("", funcName)
    let rargs : List Node × St :=
      match params with
      | some (ChParamExprList.mk (some (ChColumnExprList.mk items))) => convertExprList items s
      | _ => ([], s)
    (Node.funcCall { schema := sb.1, name := sb.2 } [Node.str funcName] rargs.1
      Option.none pos, rargs.2)
termination_by (sizeOf fn, 0)

/-- `convertBinaryOperation`. -/
def convertBinaryOperation (leftExpr : ChExpr) (operation : String) (rightExpr : ChExpr)
    (pos : Nat) (s : St) : Node × St :=
  let rl := convert leftExpr s
  let rr := convert rightExpr rl.2
  (Node.aExpr 0 [Node.str operation] (some rl.1) (some rr.1) pos, rr.2)
termination_by (sizeOf leftExpr + sizeOf rightExpr, 0)
decreasing_by
  all_goals simp_wf
  all_goals apply Prod.Lex.left
  all_goals have h1 : 0 < sizeOf leftExpr := by cases leftExpr <;> simp_arith
  all_goals have h2 : 0 < sizeOf rightExpr := by cases rightExpr <;> simp_arith
  all_goals omega

/-- `convertColumnExpr`: unwraps to the inner expression. -/
def convertColumnExpr (expr : ChExpr) (s : St) : Node × St :=
  convert expr s
termination_by (sizeOf expr, 1)

/-- `convertOrderExpr`. -/
def convertOrderExpr (expr : ChExpr) (direction : String) (pos : Nat) (s : St) : Node × St :=
  let r := convert expr s
  let dir : SortDir :=
    if direction = "DESC" then SortDir.desc
    else if direction = "ASC" then SortDir.asc
    else SortDir.default
  (Node.sortBy r.1 dir pos, r.2)
termination_by (sizeOf expr, 1)

/-- `convertJoinTableExpr`. -/
def convertJoinTableExpr (table : Option ChTableExpr) (s : St) : Node × St :=
  match table with
  | Option.none => (Node.todo, s)
  | some te => convertTableExpr te s
termination_by (sizeOf table, 0)

/-- `convertCastExpr`. -/
def convertCastExpr (expr : ChExpr) (asType : Option ChExpr) (pos : Nat) (s : St) :
    Node × St :=
  let r := convert expr s
  let typeName : Option TypeNameObj :=
    match asType with
    | Option.none => Option.none
    | some (ChExpr.columnTypeExpr colType) => some (convertColumnType (some colType))
    | some (ChExpr.ident id) =>
      let typeStr := identifier id.name
      some (TypeNameObj.mk typeStr [NewIdentifier typeStr])
    | some _ => some (TypeNameObj.mk "text" [NewIdentifier "text"])
  (Node.typeCast r.1 typeName pos, r.2)
termination_by (sizeOf expr + sizeOf asType, 0)
decreasing_by
  all_goals simp_wf
  all_goals apply Prod.Lex.left
  all_goals have h1 : 0 < sizeOf asType := by cases asType <;> simp_arith
  all_goals omega

/-- `convertCaseExpr`. -/
def convertCaseExpr (expr : Option ChExpr) (whens : List (Option ChWhenClause))
    (elseExpr : Option ChExpr) (pos : Nat) (s : St) : Node × St :=
  let rArg : Option Node × St :=
    match expr with
    | some e =>
      let r := convert e s
      (some r.1, r.2)
    | Option.none => (Option.none, s)
  let rWhens := convertWhens whens rArg.2
  let rElse : Option Node × St :=
    match elseExpr with
    | some e =>
      let r := convert e rWhens.2
      (some r.1, r.2)
    | Option.none => (Option.none, rWhens.2)
  (Node.caseExpr rArg.1 rWhens.1 rElse.1 pos, rElse.2)
termination_by (sizeOf expr + sizeOf whens + sizeOf elseExpr, 0)
decreasing_by
  all_goals simp_wf
  all_goals apply Prod.Lex.left
  all_goals first
    | omega
    | (have h1 : 0 < sizeOf expr := by cases expr <;> simp_arith
       omega)

/-- The WHEN-clause loop of `convertCaseExpr` (nil entries are skipped). -/
def convertWhens (whens : List (Option ChWhenClause)) (s : St) : List Node × St :=
  match whens with
  | [] => ([], s)
  | Option.none :: rest => convertWhens rest s
  | some (ChWhenClause.mk w t) :: rest =>
    let rw := convert w s
    let rt := convert t rw.2
    let rr := convertWhens rest rt.2
    (rw.1 :: rt.1 :: rr.1, rr.2)
termination_by (sizeOf whens, 0)

/-- `convertWindowFunctionExpr`. -/
def convertWindowFunctionExpr (function : ChFunctionExpr) (overExpr : Option ChExpr)
    (s : St) : Node × St :=
  let rf := convertFunctionExpr function s
  let rOver : Option WindowDefObj × St :=
    match overExpr with
    | some (ChExpr.windowExpr winDef) =>
      let r := convertWindowDef winDef rf.2
      (some r.1, r.2)
    | _ => (Option.none, rf.2)
  match rf.1 with
  | Node.funcCall fnc fnames args _ loc => (Node.funcCall fnc fnames args rOver.1 loc, rOver.2)
  | other => (other, rOver.2)
termination_by (sizeOf function + sizeOf overExpr, 0)
decreasing_by
  all_goals simp_wf
  all_goals apply Prod.Lex.left
  all_goals first
    | omega
    | (have h1 : 0 < sizeOf overExpr := by cases overExpr <;> simp_arith
       omega)

/-- `convertWindowDef`. -/
def convertWindowDef (winDef : ChWindowExpr) (s : St) : WindowDefObj × St :=
  match winDef with
  | ChWindowExpr.mk partitionBy orderBy pos =>
    let rp : Option (List Node) × St :=
      match partitionBy with
      | some (ChPartitionByClause.mk (some e)) =>
        let r := convert e s
        (some [r.1], r.2)
      | _ => (Option.none, s)
    let ro : Option (List Node) × St :=
      match orderBy with
      | some ob =>
        let r := convertOrderByClause (some ob) rp.2
        (some r.1, r.2)
      | Option.none => (Option.none, rp.2)
    (WindowDefObj.mk rp.1 ro.1 pos, ro.2)
termination_by (sizeOf winDef, 0)

/-- `convertIsNullExpr`. -/
def convertIsNullExpr (expr : ChExpr) (pos : Nat) (s : St) : Node × St :=
  let r := convert expr s
  (Node.nullTest r.1 0 pos, r.2)
termination_by (sizeOf expr, 1)

/-- `convertIsNotNullExpr`. -/
def convertIsNotNullExpr (expr : ChExpr) (pos : Nat) (s : St) : Node × St :=
  let r := convert expr s
  (Node.nullTest r.1 1 pos, r.2)
termination_by (sizeOf expr, 1)

/-- `convertUnaryExpr`. -/
def convertUnaryExpr (kind : String) (expr : ChExpr) (pos : Nat) (s : St) : Node × St :=
  let r := convert expr s
  (Node.aExpr 1 [Node.str kind] Option.none (some r.1) pos, r.2)
termination_by (sizeOf expr, 1)

/-- `convertMapLiteral`. -/
def convertMapLiteral (keyValues : List ChKeyValue) (pos : Nat) (s : St) : Node × St :=
  let r := convertKeyValues keyValues s
  (Node.aConst (Node.list r.1) pos, r.2)
termination_by (sizeOf keyValues, 1)

/-- The key/value loop of `convertMapLiteral` (the key is converted through
the dispatch as a string literal; a nil value is skipped). -/
def convertKeyValues (kvs : List ChKeyValue) (s : St) : List Node × St :=
  match kvs with
  | [] => ([], s)
  | ChKeyValue.mk key value :: rest =>
    let rk := convert (ChExpr.stringLiteral key) s
    let rv : List Node × St :=
      match value with
      | some v =>
        let r := convert v rk.2
        ([r.1], r.2)
      | Option.none => ([], rk.2)
    let rr := convertKeyValues rest rv.2
    (rk.1 :: (rv.1 ++ rr.1), rr.2)
termination_by (sizeOf kvs, 0)

/-- `convertParamExprList`: a single-item list is unwrapped; otherwise the
items are converted into an `ast.List` (with `ColumnExpr` items unwrapped). -/
def convertParamExprList (pl : ChParamExprList) (s : St) : Node × St :=
  match pl with
  | ChParamExprList.mk Option.none => (Node.todo, s)
  | ChParamExprList.mk (some (ChColumnExprList.mk items)) =>
    match items with
    | [e] => convert e s
    | [] =>
      let r := convertParamItems [] s
      (Node.list r.1, r.2)
    | e0 :: e1 :: restI =>
      let r := convertParamItems (e0 :: e1 :: restI) s
      (Node.list r.1, r.2)
termination_by (sizeOf pl, 0)

/-- The multi-item loop of `convertParamExprList`. -/
def convertParamItems (items : List ChExpr) (s : St) : List Node × St :=
  match items with
  | [] => ([], s)
  | item :: rest =>
    let r :=
      match item with
      | ChExpr.columnExpr inner => convert inner s
      | itOther => convert itOther s
    let rr := convertParamItems rest r.2
    (r.1 :: rr.1, rr.2)
termination_by (sizeOf items, 1)

/-- `mergeArrayJoinIntoFrom` (the nil guards are dead: the FROM clause list
and the converted ARRAY JOIN node are never nil here). -/
def mergeArrayJoinIntoFrom (fromClause : List Node) (arrayJoin : ChArrayJoinClause)
    (s : St) : List Node × St :=
  let r := convertArrayJoinClause arrayJoin s
  (fromClause ++ [r.1], r.2)
termination_by (sizeOf arrayJoin, 2)

/-- `convertArrayJoinClause`. -/
def convertArrayJoinClause (arrayJoin : ChArrayJoinClause) (s : St) : Node × St :=
  match arrayJoin with
  | ChArrayJoinClause.mk expr ty =>
    match expr with
    | ChExpr.columnExprList (ChColumnExprList.mk items) =>
      match items with
      | first :: _ => convertArrayJoinItem first ty s
      | [] => convertArrayJoinItem (ChExpr.columnExprList (ChColumnExprList.mk [])) ty s
    | eOther => convertArrayJoinItem eOther ty s
termination_by (sizeOf arrayJoin, 1)

/-- `convertArrayJoinItem`. -/
def convertArrayJoinItem (expr : ChExpr) (joinType : String) (s : St) : Node × St :=
  match expr with
  | ChExpr.selectItem (ChSelectItem.mk e aliasF _) =>
    let r := convert e s
    let al : Option AliasObj := aliasF.map fun a => { aliasname := some (identifier a.name) }
    let fc := Node.funcCall { name := "arrayjoin" } [] [r.1] Option.none 0
    (Node.rangeFunction (joinType == "LEFT") [fc] al, r.2)
  | eOther =>
    let r := convert eOther s
    let fc := Node.funcCall { name := "arrayjoin" } [] [r.1] Option.none 0
    (Node.rangeFunction (joinType == "LEFT") [fc] Option.none, r.2)
termination_by (sizeOf expr, 1)

end

/-! ## The Catalog (`internal/sql/catalog`)

Only the ClickHouse-side constructor (`NewCatalog`, `newDefaultSchema`) is in
the sources; the registry operations are modelled from the spec. -/

/-- `catalog.Column` (name, type, nullability). -/
structure CatColumn where
  name : String
  ctype : String
  notNull : Bool
deriving DecidableEq, Repr

/-- `catalog.Table`. -/
structure CatTable where
  name : String
  columns : List CatColumn
deriving DecidableEq, Repr

/-- `catalog.Schema`. -/
structure CatSchema where
  name : String
  tables : List CatTable
deriving DecidableEq, Repr

/-- `catalog.Catalog` (the `Extensions` map, always empty here, is omitted). -/
structure Catalog where
  defaultSchema : String
  schemas : List CatSchema
deriving DecidableEq, Repr

/-- `newDefaultSchema`. -/
def newDefaultSchema (name : String) : CatSchema :=
  { name := name, tables := [] }

/-- `NewCatalog`: ClickHouse uses `default` as the default database. -/
def NewCatalog : Catalog :=
  let defaultSchemaName := "default"
  { defaultSchema := defaultSchemaName
    schemas := [newDefaultSchema defaultSchemaName] }

/-- Modelled from the spec: `addTable(schema, name, columns[])` of the Catalog
component (`internal/sql/catalog` is not among the sources).  "Default-schema
fallback applies when a table reference omits a schema. Lookups are
case-insensitive" — an empty schema name falls back to the default schema and
schema names compare lower-cased. -/
def Catalog.addTable (cat : Catalog) (schema : String) (name : String)
    (cols : List CatColumn) : Except String Catalog :=
  let target := if schema = "" then cat.defaultSchema else schema
  if cat.schemas.any (fun sc => goToLower sc.name = goToLower target) then
    Except.ok
      { cat with
        schemas := cat.schemas.map fun sc =>
          if goToLower sc.name = goToLower target then
            { sc with tables := sc.tables ++ [{ name := name, columns := cols }] }
          else sc }
  else Except.error "schema not found"

/-- Modelled from the spec: `lookupTable(schema?, name) -> columns | NotFound`
with default-schema fallback and case-insensitive (lower-cased) matching. -/
def Catalog.lookupTable (cat : Catalog) (schema : Option String) (name : String) :
    Option CatTable :=
  let target :=
    match schema with
    | Option.none => cat.defaultSchema
    | some sc => sc
  (cat.schemas.find? fun sc => goToLower sc.name = goToLower target).bind fun sc =>
    sc.tables.find? fun t => goToLower t.name = goToLower name

/-- Column record of a converted `ast.ColumnDef`. -/
def catColumnOf (d : ColumnDefObj) : CatColumn :=
  match d with
  | ColumnDefObj.mk c t nn => { name := c, ctype := (t.map TypeNameObj.name).getD "", notNull := nn }

/-- Modelled from the spec: the Catalog update step applied to each converted
statement ("Converter accepts CreateTable/CreateDatabase/…-shaped dialect
nodes and feeds Catalog; statement kinds irrelevant to query compilation …
are accepted, produce no Catalog mutation, and are not errors").  Only DDL
node kinds mutate the catalog; every other canonical node leaves it
unchanged without error. -/
def catalogUpdate (cat : Catalog) (n : Node) : Except String Catalog :=
  match n with
  | Node.createSchemaStmt name _ =>
    Except.ok { cat with schemas := cat.schemas ++ [newDefaultSchema (name.getD "")] }
  | Node.createTableStmt name _ cols =>
    cat.addTable name.schema name.name (cols.map catColumnOf)
  | _ => Except.ok cat

/-- Modelled from the spec: a `Query` record is assembled only for statements
that compile to a query shape (a select or an insert); placeholders and DDL
yield none. -/
def queryRecord? (n : Node) : Option Node :=
  match n with
  | Node.selectRef a => some (Node.selectRef a)
  | Node.insertStmt r c sel ret => some (Node.insertStmt r c sel ret)
  | _ => Option.none

/-! ## The parameter-rewrite pipeline of the repository documents

`internal/engine/clickhouse/parse.go` and the compiler's
`rewrite.NamedParameters` / `source.Mutate` steps are not among the sources;
they are modelled from the repository's own bug document and flow document
(`src/unnamed/part_000`, `QUERY_PROCESSING_FLOW.md`) and the spec. -/

/-- Match the tail of a quoted parameter name: consumes up to the closing
quote, then a closing parenthesis; returns the rest of the text. -/
def matchQuoted (q : Char) : List Char → Option (List Char)
  | [] => Option.none
  | c :: rest =>
    if c = q then
      match rest with
      | ')' :: r2 => some r2
      | _ => Option.none
    else matchQuoted q rest

/-- Match one parameter-annotation call (`sqlc.arg` / `sqlc.narg` /
`sqlc.slice`, then a parenthesized quoted name) at the head of the text. -/
def matchAnnot (s : List Char) : Option (List Char) :=
  let tail (k : Nat) : Option (List Char) :=
    match s.drop k with
    | '(' :: q :: rest =>
      if q = squoteChar ∨ q = dquoteChar then matchQuoted q rest else Option.none
    | _ => Option.none
  if "sqlc.arg".data.isPrefixOf s then tail 8
  else if "sqlc.narg".data.isPrefixOf s then tail 9
  else if "sqlc.slice".data.isPrefixOf s then tail 10
  else Option.none

/-- One-pass replacement loop (fuelled by the text length: every step
consumes at least one character). -/
def preprocessCharsF : Nat → List Char → List Char
  | 0, l => l
  | _ + 1, [] => []
  | fuel + 1, c :: rest =>
    match matchAnnot (c :: rest) with
    | some r => '?' :: preprocessCharsF fuel r
    | Option.none => c :: preprocessCharsF fuel rest

/-- Modelled from the spec/bug document: the lexical preprocessing of
`preprocessNamedParameters` in `internal/engine/clickhouse/parse.go` (not
among the sources) as the claim's cited document describes it: every
parameter-annotation call is replaced by the single byte `?` before the text
reaches the dialect parser — a length-changing substitution that destroys
the annotation's textual form. -/
def preprocessNamedParameters (sql : String) : String :=
  ⟨preprocessCharsF sql.data.length sql.data⟩

/-- `source.Edit` as the repository documents describe it: a replacement
addressed by an original-text offset. -/
structure Edit where
  location : Nat
  old : String
  new : String
deriving DecidableEq, Repr

/-- Modelled from the spec: `source.Mutate` applies the edit sequence once,
in order, to the original text (offsets shifted by the accumulated length
delta of the already-applied edits). -/
def sourceMutate (raw : String) (edits : List Edit) : String :=
  let res := edits.foldl
    (fun (acc : List Char × Int) e =>
      let pos := (Int.ofNat e.location + acc.2).toNat
      let before := acc.1.take pos
      let after := acc.1.drop (pos + e.old.length)
      (before ++ e.new.data ++ after,
        acc.2 + Int.ofNat e.new.length - Int.ofNat e.old.length))
    (raw.data, 0)
  ⟨res.1⟩

/-- Children of a canonical node, dereferencing select objects through the
heap (used by the modelled rewrite walk). -/
def nodeChildren (heap : List SelectStmtObj) (n : Node) : List Node :=
  match n with
  | Node.list items => items
  | Node.selectRef a =>
    match heap[a]? with
    | Option.none => []
    | some o =>
      o.targetList.getD [] ++ o.fromClause.getD [] ++ o.whereClause.toList ++
      o.groupClause.getD [] ++ o.havingClause.toList ++ o.sortClause.getD [] ++
      (match o.withClause with
        | some w => w.ctes
        | Option.none => []) ++
      o.valuesLists.getD [] ++ o.limitCount.toList ++ o.limitOffset.toList ++
      (o.larg.map Node.selectRef).toList ++ (o.rarg.map Node.selectRef).toList
  | Node.resTarget _ v _ => [v]
  | Node.rangeSubselect sub _ => [sub]
  | Node.joinExpr _ l r q => [l, r] ++ q.toList
  | Node.commonTableExpr _ q _ => [q]
  | Node.insertStmt _ cols sel _ => cols ++ sel.toList
  | Node.funcCall _ _ args _ _ => args
  | Node.aExpr _ _ l r _ => l.toList ++ r.toList
  | Node.aConst v _ => [v]
  | Node.columnRef fields _ => fields
  | Node.typeCast arg _ _ => [arg]
  | Node.caseExpr arg args dr _ => arg.toList ++ args ++ dr.toList
  | Node.nullTest arg _ _ => [arg]
  | Node.sortBy nd _ _ => [nd]
  | Node.rangeFunction _ fns _ => fns
  | _ => []

/-- Modelled from the spec: the parameter-canonicalization family of the
Rewrite Engine (`rewrite.NamedParameters`, not among the sources): it walks
the canonical AST and emits one edit, addressed at the node's `Location`,
for every function call with schema `sqlc` and name `arg`/`narg`/`slice`.
The walk is fuelled (one unit per visited node) so it is total even on
self-referential select objects. -/
def collectParamEdits (heap : List SelectStmtObj) : Nat → List Node → List Edit
  | 0, _ => []
  | _, [] => []
  | fuel + 1, n :: rest =>
    let hit : List Edit :=
      match n with
      | Node.funcCall fnc _ _ _ loc =>
        if fnc.schema = "sqlc" ∧ (fnc.name = "arg" ∨ fnc.name = "narg" ∨ fnc.name = "slice")
        then [{ location := loc, old := "", new := "?" }]
        else []
      | _ => []
    hit ++ collectParamEdits heap fuel (nodeChildren heap n ++ rest)

/-! ## Projections and concrete scenario inputs used by the statements -/

/-- The `Func` field of a converted function call, when the node is one. -/
def funcCallFunc? : Node → Option FuncName
  | Node.funcCall f _ _ _ _ => some f
  | _ => Option.none

/-- The `Funcname` list of a converted function call, when the node is one. -/
def funcCallFuncname? : Node → Option (List Node)
  | Node.funcCall _ fns _ _ _ => some fns
  | _ => Option.none

/-- The `Name` identifier of a dialect function-call node. -/
def ChFunctionExpr.fname : ChFunctionExpr → ChIdent
  | ChFunctionExpr.mk n _ _ => n

/-- Is this dialect node a positional parameter marker (`?`)?  Both
`QueryParam` and `PlaceHolder` convert through the shared counter. -/
def isParamMarker : ChExpr → Bool
  | ChExpr.queryParam _ => true
  | ChExpr.placeHolder _ => true
  | _ => false

/-- The parameter numbers carried by the `ParamRef` nodes of a list, in
order. -/
def paramNumbersOf (l : List Node) : List Nat :=
  l.foldr
    (fun n acc =>
      match n with
      | Node.paramRef k _ _ => k :: acc
      | _ => acc)
    []

/-- A select query with no clauses at all (`SELECT` with nothing). -/
def minimalSelect : ChSelectQuery :=
  ChSelectQuery.mk [] Option.none Option.none Option.none Option.none Option.none
    Option.none Option.none false Option.none Option.none Option.none Option.none

/-- A composite select: the minimal select with `UNION ALL` of another
minimal select. -/
def unionAllSelect : ChSelectQuery :=
  ChSelectQuery.mk [] Option.none Option.none Option.none Option.none Option.none
    Option.none Option.none false Option.none (some minimalSelect) Option.none Option.none

/-- The heap object `convertSelectQuery` allocates for `minimalSelect`. -/
def emptySelectObj : SelectStmtObj :=
  { targetList := some [], fromClause := some [], groupClause := some [],
    sortClause := some [] }

/-- The composite object after the UNION ALL mutations: operator tag and
ALL flag set, `larg` pointing at address 0 (itself), `rarg` at address 1. -/
def unionLeftObj : SelectStmtObj :=
  { emptySelectObj with op := SetOp.union, all := true, larg := some 0, rarg := some 1 }

/-- Three positional markers in a row. -/
def markerList : List ChExpr :=
  [ChExpr.queryParam (ChQueryParam.mk 3), ChExpr.placeHolder (ChPlaceHolder.mk 9),
    ChExpr.queryParam (ChQueryParam.mk 12)]

/-- The regression query of the repository's bug document: a statement whose
parameter annotation is destroyed by the length-changing preprocessing. -/
def c1Original : String := "SELECT id FROM users WHERE id IN (sqlc.slice(\"user_ids\"))"

/-- The dialect parse tree the ClickHouse parser produces for the
*preprocessed* text `SELECT id FROM users WHERE id IN (?)` (per the bug
document, the annotation call has already become a bare `?` parameter). -/
def c1Query : ChSelectQuery :=
  ChSelectQuery.mk
    [ChSelectItem.mk (ChExpr.ident (ChIdent.mk "id" 7)) Option.none 7]
    (some (ChFromClause.mk (some (ChExpr.tableExpr (ChTableExpr.mk
      (ChExpr.tableIdentifier (ChTableIdentifier.mk Option.none (some (ChIdent.mk "users" 15)) 15))
      Option.none)))))
    (some (ChWhereClause.mk (ChExpr.binaryOperation
      (ChExpr.ident (ChIdent.mk "id" 27)) "IN"
      (ChExpr.paramExprList (ChParamExprList.mk (some (ChColumnExprList.mk
        [ChExpr.queryParam (ChQueryParam.mk 34)])))) 27)))
    Option.none Option.none Option.none Option.none Option.none false Option.none
    Option.none Option.none Option.none

/-- The heap object the converter builds for `c1Query`: a `ParamRef` where
the `sqlc.slice` call stood, and no function-call node anywhere. -/
def c1SelectObj : SelectStmtObj :=
  { targetList := some [Node.resTarget Option.none (Node.str "id") 7]
    fromClause := some [Node.rangeVar (RangeVarObj.mk Option.none (some "users") 15)]
    whereClause := some (Node.aExpr 0 [Node.str "IN"] (some (Node.str "id"))
      (some (Node.paramRef 1 34 false)) 27)
    groupClause := some []
    sortClause := some [] }

/-! ## Helper lemmas (single-step evaluations and small generalities) -/

/-- Converting an empty select-item list is the identity on the state. -/
theorem convertSelectItems_nil (s : St) : convertSelectItems [] s = ([], s) := by
  simp [convertSelectItems]

/-- An absent FROM clause converts to an empty list. -/
theorem convertFromClause_none (s : St) : convertFromClause Option.none s = ([], s) := by
  simp [convertFromClause]

/-- An absent WHERE clause converts to nothing. -/
theorem convertWhereClause_none (s : St) :
    convertWhereClause Option.none s = (Option.none, s) := by
  simp [convertWhereClause]

/-- An absent GROUP BY clause converts to an empty list. -/
theorem convertGroupByClause_none (s : St) : convertGroupByClause Option.none s = ([], s) := by
  simp [convertGroupByClause]

/-- An absent HAVING clause converts to nothing. -/
theorem convertHavingClause_none (s : St) :
    convertHavingClause Option.none s = (Option.none, s) := by
  simp [convertHavingClause]

/-- An absent ORDER BY clause converts to an empty list. -/
theorem convertOrderByClause_none (s : St) : convertOrderByClause Option.none s = ([], s) := by
  simp [convertOrderByClause]

/-- An absent WITH clause converts to nothing. -/
theorem convertWithClause_none (s : St) :
    convertWithClause Option.none s = (Option.none, s) := by
  simp [convertWithClause]

/-- Converting the minimal select allocates one empty object at the end of
the heap. -/
theorem convertSelectQuery_minimal (s : St) :
    convertSelectQuery minimalSelect s =
      (s.selects.length, { s with selects := s.selects ++ [emptySelectObj] }) := by
  simp only [minimalSelect, convertSelectQuery, convertSelectItems_nil, convertFromClause_none,
    convertWhereClause_none, convertGroupByClause_none, convertHavingClause_none,
    convertOrderByClause_none, convertWithClause_none, selectArrayJoinStep,
    selectLimitStep, selectSetOpStep, St.allocSelect, emptySelectObj]
  simp

/-- A conditional between two non-empty strings is non-empty. -/
theorem ite_len_pos {c : Prop} [Decidable c] {a b : String}
    (ha : 0 < a.length) (hb : 0 < b.length) : 0 < (if c then a else b).length := by
  by_cases h : c <;> simp [h, ha, hb]

/-- A left fold that appends a chunk per element is the flattened map. -/
theorem foldl_append_flatten {α β : Type} (f : List β → α → List β) (g : α → List β)
    (hfg : ∀ acc x, f acc x = acc ++ g x) :
    ∀ (l : List α) (init : List β), l.foldl f init = init ++ (l.map g).flatten := by
  intro l
  induction l with
  | nil => intro init; simp
  | cons x xs ih => intro init; simp [hfg, ih]

/-- Evaluation of the converter on the bug document's regression query: the
statement counter ends at 1 (one positional parameter) and the single select
object holds a `ParamRef`, not a function call. -/
theorem c1_conversion_eval :
    convertSelectQuery c1Query (St.mk 0 []) = (0, St.mk 1 [c1SelectObj]) := by
  simp only [c1Query, convertSelectQuery, convertSelectItems, convertSelectItem,
    convertFromClause, convertFromExpr, convertTableExpr, convertTableIdentifier,
    convertWhereClause, convertBinaryOperation, convertParamExprList, convertQueryParam,
    convert, convertIdent, identifier,
    convertGroupByClause_none, convertHavingClause_none, convertOrderByClause_none,
    convertWithClause_none, selectArrayJoinStep, selectLimitStep, selectSetOpStep,
    St.allocSelect]
  simp [c1SelectObj, goToLower]
  decide

/-! ## Claim theorems -/

/-- Claim C1 (code bug, pipeline modelled from the repository's own bug
document): for the regression statement whose `sqlc.slice` annotation is
destroyed by the length-changing preprocessing (annotation call → `?`), the
rewrite step produces NO edit at all — the walk over the canonical tree of
the preprocessed text finds a `ParamRef`, never a `sqlc` function call — so
the final text is the unchanged original, still containing `sqlc.slice`.
This refutes the claim that a correct edit at the annotation's original
offset is still produced. -/
theorem length_changed_annotation_yields_no_edit :
    preprocessNamedParameters c1Original = "SELECT id FROM users WHERE id IN (?)" ∧
    (preprocessNamedParameters c1Original).length ≠ c1Original.length ∧
    collectParamEdits (convertSelectQuery c1Query (St.mk 0 [])).2.selects 100
      [Node.selectRef (convertSelectQuery c1Query (St.mk 0 [])).1] = [] ∧
    sourceMutate c1Original
      (collectParamEdits (convertSelectQuery c1Query (St.mk 0 [])).2.selects 100
        [Node.selectRef (convertSelectQuery c1Query (St.mk 0 [])).1]) = c1Original ∧
    goContains c1Original "sqlc.slice" = true := by
  rw [c1_conversion_eval]
  refine ⟨by decide, by decide, by decide, by decide, by decide⟩

/-- Claim C2 (code bug): converting `SELECT … UNION ALL SELECT …` does set
an explicit operator tag (`Op = Union`) and the ALL flag, and `Rarg` is the
converted right operand (address 1) — but `Larg` is set to the composite
node itself (`selectStmt.Larg = selectStmt` yields `larg = some 0` on the
node at address 0), a self-reference, not a distinct left operand.  This
refutes the part of the claim that neither operand is the composite node
itself. -/
theorem convertSelectQuery_unionAll_larg_self :
    (convertSelectQuery unionAllSelect (St.mk 0 [])).1 = 0 ∧
    ((convertSelectQuery unionAllSelect (St.mk 0 [])).2.selects.map
        fun o => (o.op, o.all, o.larg, o.rarg)) =
      [(SetOp.union, true, some 0, some 1),
       (SetOp.none, false, Option.none, Option.none)] := by
  have h : convertSelectQuery unionAllSelect (St.mk 0 []) =
      (0, St.mk 0 [unionLeftObj, emptySelectObj]) := by
    simp only [unionAllSelect, convertSelectQuery, convertSelectItems_nil,
      convertFromClause_none, convertWhereClause_none, convertGroupByClause_none,
      convertHavingClause_none, convertOrderByClause_none, convertWithClause_none,
      selectArrayJoinStep, selectLimitStep, selectSetOpStep, St.allocSelect,
      St.updSelect, listUpdate, convertSelectQuery_minimal]
    simp [emptySelectObj, unionLeftObj, St.updSelect, listUpdate]
  rw [h]
  simp [emptySelectObj, unionLeftObj]

/-- Claim C3: a function call whose (lower-cased) name carries the reserved
`sqlc_` prefix — the canonicalized spelling of the dotted parameter
annotation the grammar rejects — converts to `{schema := sqlc, name :=` the
name with the prefix removed`}`; any other function call converts with an
empty schema and the case-folded name. -/
theorem convertFunctionExpr_schema_split (fn : ChFunctionExpr) (s : St) :
    (goStartsWith (goToLower fn.fname.name) "sqlc_" = true →
      funcCallFunc? (convertFunctionExpr fn s).1 =
        some { schema := "sqlc", name := goTrimPrefixStr (goToLower fn.fname.name) "sqlc_" }) ∧
    (goStartsWith (goToLower fn.fname.name) "sqlc_" = false →
      funcCallFunc? (convertFunctionExpr fn s).1 =
        some { schema := "", name := goToLower fn.fname.name }) := by
  obtain ⟨nm, params, pos⟩ := fn
  constructor <;> intro h <;>
    simp [convertFunctionExpr.eq_def, funcCallFunc?, ChFunctionExpr.fname, identifier, h] at h ⊢

/-- Witness for C3: the canonicalized `SQLC_Arg` reconstructs schema `sqlc`
with the prefix stripped. -/
theorem convertFunctionExpr_schema_split_witness :
    funcCallFunc? (convertFunctionExpr (ChFunctionExpr.mk (ChIdent.mk "SQLC_Arg" 0)
        Option.none 0) (St.mk 0 [])).1
      = some (FuncName.mk "sqlc"
          (goTrimPrefixStr (goToLower (ChFunctionExpr.mk (ChIdent.mk "SQLC_Arg" 0)
            Option.none 0).fname.name) "sqlc_")) :=
  (convertFunctionExpr_schema_split (ChFunctionExpr.mk (ChIdent.mk "SQLC_Arg" 0)
    Option.none 0) (St.mk 0 [])).1 (by decide)

/-- Claim C4: every dialect node kind without its own dispatch case converts
to the opaque `TODO` placeholder with the state untouched; the conversion's
type (`Node × St`, mirroring Go's error-free `ast.Node` return) admits no
error, so the enclosing statement's conversion is never aborted. -/
theorem convert_unsupported_is_todo :
    (∀ kind s, convert (ChExpr.otherNode kind) s = (Node.todo, s)) ∧
    (∀ te s, convert (ChExpr.tableExpr te) s = (Node.todo, s)) ∧
    (∀ je s, convert (ChExpr.joinExpr je) s = (Node.todo, s)) ∧
    (∀ ti s, convert (ChExpr.tableIdentifier ti) s = (Node.todo, s)) ∧
    (∀ si s, convert (ChExpr.selectItem si) s = (Node.todo, s)) ∧
    (∀ w s, convert (ChExpr.windowExpr w) s = (Node.todo, s)) ∧
    (∀ l s, convert (ChExpr.columnExprList l) s = (Node.todo, s)) ∧
    (∀ t s, convert (ChExpr.columnTypeExpr t) s = (Node.todo, s)) ∧
    (∀ cd s, convert (ChExpr.columnDef cd) s = (Node.todo, s)) := by
  refine ⟨?_, ?_, ?_, ?_, ?_, ?_, ?_, ?_, ?_⟩ <;> intro x s <;> simp [convert, todo]

/-- Counterexample for claim C5: a subquery table expression aliased `Foo`
keeps the alias verbatim — `identifier` (lower-case folding) is never
applied to it, contradicting "every identifier … and aliases … is emitted in
lower-case folded form". -/
theorem convertTableExpr_subquery_alias_verbatim :
    (convertTableExpr (ChTableExpr.mk (ChExpr.selectQuery minimalSelect)
        (some (ChAliasExpr.mk (ChExpr.ident (ChIdent.mk "Foo" 0))))) (St.mk 0 [])).1
      = Node.rangeSubselect (Node.selectRef 0) (some { aliasname := some "Foo" }) ∧
    identifier "Foo" ≠ "Foo" := by
  constructor
  · simp only [convertTableExpr, convert, convertSelectQuery_minimal]
    rfl
  · decide

/-- Claim C5 as amended: every identifier the converter emits — plain
identifiers, table identifiers (schema and table), select-item aliases,
function names, nested identifiers, column-name lists, CTE names, schema
names, CREATE TABLE names, column names, insert relations and ARRAY JOIN
aliases — is lower-case folded, EXCEPT the alias of a subquery table
expression, which is emitted verbatim. -/
theorem identifiers_folded_except_subquery_alias :
    (∀ id, convertIdent id = Node.str (goToLower id.name)) ∧
    (∀ ti : ChTableIdentifier, convertTableIdentifier ti =
      RangeVarObj.mk (ti.database.map fun d => goToLower d.name)
        (ti.table.map fun t => goToLower t.name) ti.pos) ∧
    (∀ e al pos s, convertSelectItem (ChSelectItem.mk e al pos) s =
      (Node.resTarget (al.map fun a => goToLower a.name) (convert e s).1 pos,
        (convert e s).2)) ∧
    (∀ nm params pos s,
      funcCallFuncname? (convertFunctionExpr (ChFunctionExpr.mk nm params pos) s).1 =
        some [Node.str (goToLower nm.name)]) ∧
    (∀ n : ChNestedIdentifier, convertNestedIdentifier n =
      Node.columnRef ((n.ident.map fun i => Node.str (goToLower i.name)).toList ++
        (n.dotIdent.map fun d => Node.str (goToLower d.name)).toList) n.pos) ∧
    (∀ cns, convertColumnNames (some (ChColumnNamesExpr.mk cns)) =
      (cns.map fun col => (col.ident.map fun i => Node.str (goToLower i.name)).toList ++
        (col.dotIdent.map fun d => Node.str (goToLower d.name)).toList).flatten) ∧
    (∀ id aliasF pos s, convertCTE (ChCTEStmt.mk (ChExpr.ident id) aliasF pos) s =
      (Node.commonTableExpr (some (goToLower id.name)) (convert aliasF s).1 pos,
        (convert aliasF s).2)) ∧
    (∀ id ine, convertCreateDatabase (some (ChExpr.ident id)) ine =
      Node.createSchemaStmt (some (goToLower id.name)) ine) ∧
    (∀ d t p ine, convertCreateTable
        (ChCreateTable.mk (some (ChTableIdentifier.mk (some d) (some t) p)) ine Option.none) =
      Node.createTableStmt (TableNameObj.mk (goToLower d.name) (goToLower t.name)) ine []) ∧
    (∀ i p ty nn, convertColumnDef
        (ChColumnDef.mk (some (ChNestedIdentifier.mk (some i) Option.none p)) ty nn) =
      Node.columnDef (ColumnDefObj.mk (goToLower i.name)
        (ty.map fun t => convertColumnType (some t)) nn)) ∧
    (∀ id, convertTableExprToRangeVar (ChExpr.ident id) =
      RangeVarObj.mk Option.none (some (goToLower id.name)) id.pos) ∧
    (∀ e a p ty s, convertArrayJoinItem (ChExpr.selectItem (ChSelectItem.mk e (some a) p)) ty s =
      (Node.rangeFunction (ty == "LEFT")
        [Node.funcCall (FuncName.mk "" "arrayjoin") [] [(convert e s).1] Option.none 0]
        (some (AliasObj.mk (some (goToLower a.name)))), (convert e s).2)) ∧
    (∀ q a s, convertTableExpr
        (ChTableExpr.mk (ChExpr.selectQuery q) (some (ChAliasExpr.mk (ChExpr.ident a)))) s =
      (Node.rangeSubselect (convert (ChExpr.selectQuery q) s).1
        (some (AliasObj.mk (some a.name))), (convert (ChExpr.selectQuery q) s).2)) := by
  refine ⟨?_, ?_, ?_, ?_, ?_, ?_, ?_, ?_, ?_, ?_, ?_, ?_, ?_⟩
  · intro id; simp [convertIdent, identifier]
  · intro ti; simp [convertTableIdentifier, identifier]
  · intro e al pos s; simp [convertSelectItem, identifier]
  · intro nm params pos s
    simp [convertFunctionExpr.eq_def, funcCallFuncname?, identifier]
  · intro n
    obtain ⟨i, d, p⟩ := n
    cases i <;> cases d <;> simp [convertNestedIdentifier, identifier]
  · intro cns
    simp only [convertColumnNames]
    refine foldl_append_flatten _ _ ?_ cns []
    intro acc col
    obtain ⟨i, d, p⟩ := col
    cases i <;> cases d <;> simp [identifier]
  · intro id aliasF pos s; simp [convertCTE, identifier]
  · intro id ine; simp [convertCreateDatabase, identifier]
  · intro d t p ine; simp [convertCreateTable, identifier]
  · intro i p ty nn; simp [convertColumnDef, identifier]
  · intro id; simp [convertTableExprToRangeVar, identifier]
  · intro e a p ty s; simp [convertArrayJoinItem, identifier]
  · intro q a s; simp [convertTableExpr]

/-- Claim C6: positional markers are numbered by first appearance from the
private per-statement counter — converting a list of markers from a state
with counter `c` yields numbers `c+1, c+2, …` (so from a fresh statement, 1
upward), and the only state change is the counter itself (the heap of
allocated objects is untouched). -/
theorem param_markers_numbered (ms : List ChExpr) (s : St)
    (h : ∀ m ∈ ms, isParamMarker m = true) :
    paramNumbersOf (convertExprList ms s).1 = List.range' (s.paramCount + 1) ms.length ∧
    (convertExprList ms s).2 = { s with paramCount := s.paramCount + ms.length } := by
  induction ms generalizing s with
  | nil => simp [convertExprList, paramNumbersOf]
  | cons m rest ih =>
    have hm := h m (by simp)
    have hrest : ∀ x ∈ rest, isParamMarker x = true := fun x hx => h x (by simp [hx])
    match m, hm with
    | ChExpr.queryParam p, _ =>
      have step : convert (ChExpr.queryParam p) s =
          (Node.paramRef (s.paramCount + 1) p.pos false,
            { s with paramCount := s.paramCount + 1 }) := by
        simp [convert, convertQueryParam]
      have ihr := ih { s with paramCount := s.paramCount + 1 } hrest
      simp only [convertExprList, step]
      constructor
      · simp only [paramNumbersOf] at ihr ⊢
        simp [ihr.1, List.range'_succ]
      · simp [ihr.2, Nat.add_assoc, Nat.add_comm 1 rest.length]
    | ChExpr.placeHolder p, _ =>
      have step : convert (ChExpr.placeHolder p) s =
          (Node.paramRef (s.paramCount + 1) p.pos false,
            { s with paramCount := s.paramCount + 1 }) := by
        simp [convert, convertPlaceHolder]
      have ihr := ih { s with paramCount := s.paramCount + 1 } hrest
      simp only [convertExprList, step]
      constructor
      · simp only [paramNumbersOf] at ihr ⊢
        simp [ihr.1, List.range'_succ]
      · simp [ihr.2, Nat.add_assoc, Nat.add_comm 1 rest.length]

/-- Witness for C6: three markers from a fresh statement are numbered 1, 2,
3 and only the counter changes. -/
theorem param_markers_numbered_witness :
    paramNumbersOf (convertExprList markerList (St.mk 0 [])).1
        = List.range' ((St.mk 0 []).paramCount + 1) markerList.length ∧
    (convertExprList markerList (St.mk 0 [])).2
        = { St.mk 0 [] with paramCount := (St.mk 0 []).paramCount + markerList.length } :=
  param_markers_numbered markerList (St.mk 0 []) (by decide)

/-- Claim C7 (catalog/query-record side modelled from the spec): OPTIMIZE-
and DESCRIBE-shaped statements (and the other maintenance/introspection
kinds) convert without error to the non-DDL `TODO` placeholder, which
triggers no Catalog mutation and yields no Query record. -/
theorem maintenance_stmts_inert :
    (∀ o s, convert (ChExpr.optimizeStmt o) s = (Node.todo, s)) ∧
    (∀ d s, convert (ChExpr.describeStmt d) s = (Node.todo, s)) ∧
    (∀ e s, convert (ChExpr.explainStmt e) s = (Node.todo, s)) ∧
    (∀ sh s, convert (ChExpr.showStmt sh) s = (Node.todo, s)) ∧
    (∀ t s, convert (ChExpr.truncateTable t) s = (Node.todo, s)) ∧
    (∀ cat, catalogUpdate cat Node.todo = Except.ok cat) ∧
    queryRecord? Node.todo = Option.none := by
  refine ⟨?_, ?_, ?_, ?_, ?_, ?_, ?_⟩
  · intro o s; simp [convert, convertOptimizeStmt]
  · intro d s; simp [convert, convertDescribeStmt]
  · intro e s; simp [convert, convertExplainStmt]
  · intro sh s; simp [convert, convertShowStmt]
  · intro t s; simp [convert, convertTruncateTable]
  · intro cat; simp [catalogUpdate]
  · simp [queryRecord?]

/-- Claim C8 (registry operations modelled from the spec): a fresh Catalog
holds exactly the one default schema named `default`; a CREATE TABLE whose
single-part name the grammar parsed into the database slot is reinterpreted
as the table name with no schema; registering with an empty schema falls
back to the default schema, and an unqualified lookup resolves there. -/
theorem catalog_single_default_schema_fallback :
    NewCatalog.defaultSchema = "default" ∧
    NewCatalog.schemas = [CatSchema.mk "default" []] ∧
    (∀ nm ine, convertCreateTable
        (ChCreateTable.mk (some (ChTableIdentifier.mk (some (ChIdent.mk nm 0)) Option.none 0))
          ine Option.none) =
      Node.createTableStmt (TableNameObj.mk "" (goToLower nm)) ine []) ∧
    (∀ tnm cols, NewCatalog.addTable "" tnm cols =
      Except.ok (Catalog.mk "default" [CatSchema.mk "default" [CatTable.mk tnm cols]])) ∧
    (∀ tnm cols,
      (Catalog.mk "default" [CatSchema.mk "default" [CatTable.mk tnm cols]]).lookupTable
          Option.none tnm = some (CatTable.mk tnm cols)) := by
  refine ⟨rfl, rfl, ?_, ?_, ?_⟩
  · intro nm ine
    simp [convertCreateTable, identifier]
  · intro tnm cols
    simp [Catalog.addTable, NewCatalog, newDefaultSchema]
  · intro tnm cols
    simp [Catalog.lookupTable, List.find?]

/-- Claim C9: `convertNumberLiteral` is total and silent — a nil or empty
literal yields integer 0; a literal free of `.`/`e`/`E` that parses as a
64-bit integer yields that integer; otherwise a literal that parses as a
64-bit float yields a float constant carrying the literal text; anything
else yields integer 0. -/
theorem convertNumberLiteral_total :
    convertNumberLiteral Option.none = Node.aConst (Node.integer 0) 0 ∧
    (∀ p, convertNumberLiteral (some (ChNumberLiteral.mk "" p))
        = Node.aConst (Node.integer 0) 0) ∧
    (∀ lit p v, lit ≠ "" → goContainsAny lit ".eE" = false → goParseInt64 lit = some v →
      convertNumberLiteral (some (ChNumberLiteral.mk lit p))
        = Node.aConst (Node.integer v) p) ∧
    (∀ lit p, lit ≠ "" → (goContainsAny lit ".eE" = true ∨ goParseInt64 lit = Option.none) →
      goParseFloat64Ok lit = true →
      convertNumberLiteral (some (ChNumberLiteral.mk lit p))
        = Node.aConst (Node.float lit) p) ∧
    (∀ lit p, lit ≠ "" → (goContainsAny lit ".eE" = true ∨ goParseInt64 lit = Option.none) →
      goParseFloat64Ok lit = false →
      convertNumberLiteral (some (ChNumberLiteral.mk lit p))
        = Node.aConst (Node.integer 0) p) := by
  refine ⟨by simp [convertNumberLiteral], by intro p; simp [convertNumberLiteral], ?_, ?_, ?_⟩
  · intro lit p v hne hdot hint
    simp [convertNumberLiteral, hne, hdot, hint]
  · intro lit p hne hcase hfl
    rcases hcase with hc | hc
    · simp [convertNumberLiteral, hne, hc, hfl]
    · by_cases hdot : goContainsAny lit ".eE" = true
      · simp [convertNumberLiteral, hne, hdot, hfl]
      · simp at hdot
        simp [convertNumberLiteral, hne, hdot, hc, hfl]
  · intro lit p hne hcase hfl
    rcases hcase with hc | hc
    · simp [convertNumberLiteral, hne, hc, hfl]
    · by_cases hdot : goContainsAny lit ".eE" = true
      · simp [convertNumberLiteral, hne, hdot, hfl]
      · simp at hdot
        simp [convertNumberLiteral, hne, hdot, hc, hfl]

/-- Witness for C9: an integer, a float and an unparseable literal. -/
theorem convertNumberLiteral_total_witness :
    convertNumberLiteral (some (ChNumberLiteral.mk "42" 5))
        = Node.aConst (Node.integer 42) 5 ∧
    convertNumberLiteral (some (ChNumberLiteral.mk "3.5" 6))
        = Node.aConst (Node.float "3.5") 6 ∧
    convertNumberLiteral (some (ChNumberLiteral.mk "12abc" 7))
        = Node.aConst (Node.integer 0) 7 :=
  ⟨convertNumberLiteral_total.2.2.1 "42" 5 42 (by decide) (by decide) (by decide),
   convertNumberLiteral_total.2.2.2.1 "3.5" 6 (by decide) (Or.inl (by decide)) (by decide),
   convertNumberLiteral_total.2.2.2.2 "12abc" 7 (by decide) (Or.inr (by decide)) (by decide)⟩

/-- Claim C10: `mapClickHouseType` is total with a non-empty result for
every input, case-insensitive (it depends only on the lower-cased input),
and parameterized or wrapped spellings that miss its exact-equality cases —
`DateTime64(3)`, `Nullable(Float64)` — fall back to `text`. -/
theorem mapClickHouseType_total_fallback :
    (∀ s, 0 < (mapClickHouseType s).length) ∧
    (∀ s t, goToLower s = goToLower t → mapClickHouseType s = mapClickHouseType t) ∧
    mapClickHouseType "DateTime64(3)" = "text" ∧
    mapClickHouseType "Nullable(Float64)" = "text" := by
  refine ⟨?_, ?_, by decide, by decide⟩
  · intro s
    rw [mapClickHouseType]
    generalize goToLower s = t
    rw [mapCHTypeLower]
    repeat' (first | decide | apply ite_len_pos)
  · intro s t h
    unfold mapClickHouseType
    rw [h]

/-- Witness for C10: case-insensitivity at a concrete pair. -/
theorem mapClickHouseType_total_fallback_witness :
    mapClickHouseType "Int8" = mapClickHouseType "int8" :=
  mapClickHouseType_total_fallback.2.1 "Int8" "int8" (by decide)

end ClickHouse
